/-
  Verification of the connection-registry / party-coordination core of the
  YNOProject "orbs" server.

  The Go sources are shallowly embedded as executable Lean definitions:

  * the party persistence layer (src/database.go: readPlayerPartyId,
    readPartyOwnerUuid, readPartyPublic, readPartyPass, createPlayerParty,
    clearPlayerParty, readPartyMemberUuids, readPartyMemberCount,
    checkDeleteOrphanedParty, assumeNextPartyOwner, setPartyOwner) as pure
    functions over an explicit database state `Db`;
  * the HTTP party handler branches (src/unnamed/part_000: handleParty,
    handlePartyMemberLeave) as functions from request data to an `ApiResult`
    and an updated `Db`;
  * the channel-driven session actor (src/session.go: Session.run,
    Session.broadcast, Session.deleteClient, Session.processMsgs,
    Session.processMsg) as a step function over `Actor.SessionState`;
  * the concurrent-map session variant (src/server/session.go: joinSessionWs)
    as a step function over `Server.ServerState`.

  Machine integers are modelled as Nat/Int (no overflow is relevant to the
  verified properties).  SQL rows are lists of records; SQL ORDER BY is an
  insertion sort by the same key.  Code external to the repository snapshot
  (command handlers, identity resolution, the websocket transport) is taken
  as oracle input where the verified claims do not depend on it.
-/
import Mathlib

set_option linter.unusedVariables false

/-! ## Party persistence model (src/database.go) -/

/-- One row of the `parties` table. -/
structure PartyRow where
  id : Int
  game : String
  owner : String
  name : String
  isPublic : Bool   -- column `public`
  pass : String
  theme : String
  description : String
deriving DecidableEq

/-- One row of the `partyMembers` table.  `id` is the auto-increment primary
key, so row order of membership (join order) is ascending `id`. -/
structure PartyMemberRow where
  id : Nat
  partyId : Int
  uuid : String
deriving DecidableEq

/-- The persistent store as seen by the party coordinator.  `playerRank` is
the `players.rank` column as a total lookup (every uuid has a players row).
`nextMemberId` is the auto-increment counter of `partyMembers`. -/
structure Db where
  parties : List PartyRow
  partyMembers : List PartyMemberRow
  playerRank : String → Int
  nextMemberId : Nat

/-- The `game` column of the party with the given id (`parties.game` of the
first matching row), used for the `JOIN parties p ON p.id = pm.partyId AND
p.game = ?` conditions. -/
def partyGame (db : Db) (pid : Int) : Option String :=
  (db.parties.find? (fun p => p.id == pid)).map (fun p => p.game)

/-- readPlayerPartyId (src/database.go:302): SELECT pm.partyId FROM
partyMembers pm JOIN parties p ON p.id = pm.partyId WHERE pm.uuid = ? AND
p.game = ?; sql.ErrNoRows is mapped to 0. -/
def readPlayerPartyId (db : Db) (game uuid : String) : Int :=
  match db.partyMembers.find?
      (fun pm => pm.uuid == uuid && partyGame db pm.partyId == some game) with
  | some pm => pm.partyId
  | none => 0

/-- readPartyOwnerUuid (src/database.go:588): SELECT owner FROM parties WHERE
id = ?; `none` is the sql.ErrNoRows error. -/
def readPartyOwnerUuid (db : Db) (pid : Int) : Option String :=
  (db.parties.find? (fun p => p.id == pid)).map (fun p => p.owner)

/-- readPartyPublic (src/database.go:496): SELECT public FROM parties WHERE
id = ?. -/
def readPartyPublic (db : Db) (pid : Int) : Option Bool :=
  (db.parties.find? (fun p => p.id == pid)).map (fun p => p.isPublic)

/-- readPartyPass (src/database.go:505): SELECT pass FROM parties WHERE
id = ?. -/
def readPartyPass (db : Db) (pid : Int) : Option String :=
  (db.parties.find? (fun p => p.id == pid)).map (fun p => p.pass)

/-- createPlayerParty (src/database.go:541): INSERT INTO partyMembers
(partyId, uuid) VALUES (?, ?). -/
def createPlayerParty (db : Db) (pid : Int) (uuid : String) : Db :=
  { db with
    partyMembers :=
      db.partyMembers ++ [{ id := db.nextMemberId, partyId := pid, uuid := uuid }]
    nextMemberId := db.nextMemberId + 1 }

/-- clearPlayerParty (src/database.go:550): DELETE pm FROM partyMembers pm
JOIN parties p ON p.id = pm.partyId WHERE pm.uuid = ? AND p.game = ?. -/
def clearPlayerParty (db : Db) (game uuid : String) : Db :=
  { db with
    partyMembers :=
      db.partyMembers.filter
        (fun pm => !(pm.uuid == uuid && partyGame db pm.partyId == some game)) }

/-- readPartyMemberCount (src/database.go:579): SELECT COUNT(*) FROM
partyMembers WHERE partyId = ?. -/
def readPartyMemberCount (db : Db) (pid : Int) : Nat :=
  (db.partyMembers.filter (fun pm => pm.partyId == pid)).length

/-- The `ORDER BY pd.rank DESC, pm.id` order of readPartyMemberUuids: `a`
precedes `b` when `a`'s player rank is higher, or ranks tie and `a` joined no
later (smaller auto-increment id). -/
def memberLE (rankOf : String → Int) (a b : PartyMemberRow) : Prop :=
  rankOf b.uuid < rankOf a.uuid ∨ (rankOf a.uuid = rankOf b.uuid ∧ a.id ≤ b.id)

instance (rankOf : String → Int) : DecidableRel (memberLE rankOf) := fun a b => by
  unfold memberLE; infer_instance

/-- readPartyMemberUuids (src/database.go:559): SELECT pm.uuid FROM
partyMembers pm JOIN players pd ON pd.uuid = pm.uuid WHERE pm.partyId = ?
ORDER BY pd.rank DESC, pm.id.  The players join is total (`playerRank` is a
total function); ORDER BY is realised as a sort by `memberLE`. -/
def readPartyMemberUuids (db : Db) (pid : Int) : List String :=
  (List.insertionSort (memberLE db.playerRank)
      (db.partyMembers.filter (fun pm => pm.partyId == pid))).map
    (fun pm => pm.uuid)

/-- setPartyOwner (src/database.go:627): UPDATE parties SET owner = ? WHERE
id = ?. -/
def setPartyOwner (db : Db) (pid : Int) (uuid : String) : Db :=
  { db with
    parties :=
      db.parties.map (fun p => if p.id == pid then { p with owner := uuid } else p) }

/-- checkDeleteOrphanedParty (src/database.go:636): reads the member count
and deletes the party row when it is zero; returns whether it deleted. -/
def checkDeleteOrphanedParty (db : Db) (pid : Int) : Bool × Db :=
  if readPartyMemberCount db pid = 0 then
    (true, { db with parties := db.parties.filter (fun p => !(p.id == pid)) })
  else
    (false, db)

/-- assumeNextPartyOwner (src/database.go:597).  `hub` is the key set of the
`hubClients` map (online players).  The fallback branch is the SQL
`UPDATE ... SET owner = (SELECT pm.uuid ... ORDER BY pd.rank DESC, pm.id
LIMIT 1)`, i.e. the head of the same ordered member list; with no members the
subquery is NULL (unreachable from handlePartyMemberLeave, which only calls
this when members remain) and is modelled as leaving the row unchanged. -/
def assumeNextPartyOwner (db : Db) (hub : List String) (pid : Int) : Db :=
  let partyMemberUuids := readPartyMemberUuids db pid
  match partyMemberUuids.find? (fun u => hub.contains u) with
  | some u => setPartyOwner db pid u
  | none =>
    match partyMemberUuids.head? with
    | some u => setPartyOwner db pid u
    | none => db

/-! ## HTTP party handler (src/unnamed/part_000)

The server-package persistence calls (getPlayerPartyId, getPartyOwnerUuid,
getPartyPublic, getPartyPass) are the read functions above — the snapshot
carries the main-package database layer (src/database.go) whose SQL is
identical. -/

/-- Digit-string parsing used by `atoi`: `none` on the empty string or any
non-digit character, otherwise the decimal value. -/
def digitsToNatGo : List Char → Nat → Option Nat
  | [], acc => some acc
  | c :: cs, acc =>
    if c.toNat ≥ 48 && c.toNat ≤ 57 then digitsToNatGo cs (acc * 10 + (c.toNat - 48))
    else none

/-- See `digitsToNatGo`. -/
def digitsToNat : List Char → Option Nat
  | [] => none
  | cs => digitsToNatGo cs 0

/-- strconv.Atoi (Go standard library, external to the repository): decimal
integer parsing with an optional leading minus sign; `none` is the error
return. -/
def atoi (s : String) : Option Int :=
  match s.data with
  | '-' :: cs => (digitsToNat cs).map (fun n => -(n : Int))
  | cs => (digitsToNat cs).map (fun n => (n : Int))

/-- Outcome of one handleParty request: handleError writes 400 with a
diagnostic payload, the join branch can write an explicit 401,
handleInternalError writes a generic 400. -/
inductive ApiResult where
  | ok (body : String)
  | badRequest (payload : String)
  | unauthorized
  | internalError
deriving DecidableEq

/-- handlePartyMemberLeave (src/unnamed/part_000:546): read the owner, delete
the requester's membership, delete the party if now empty, otherwise
reassign ownership when the leaver owned it.  `none` is the error return
(owner lookup failed). -/
def handlePartyMemberLeave (db : Db) (game : String) (hub : List String)
    (pid : Int) (playerUuid : String) : Option Db :=
  match readPartyOwnerUuid db pid with
  | none => none
  | some ownerUuid =>
    let db1 := clearPlayerParty db game playerUuid
    let (deleted, db2) := checkDeleteOrphanedParty db1 pid
    if !deleted && playerUuid == ownerUuid then
      some (assumeNextPartyOwner db2 hub pid)
    else
      some db2

/-- The tail of the `join` branch of handleParty after the password gate
(src/unnamed/part_000:438): the already-in-a-party conflict check and the
membership insert. -/
def handlePartyJoinFinish (db : Db) (game uuid : String) (partyId : Int) :
    ApiResult × Db :=
  let playerPartyId := readPlayerPartyId db game uuid
  if playerPartyId > 0 then
    (ApiResult.badRequest "player already in a party", db)
  else
    (ApiResult.ok "ok", createPlayerParty db partyId uuid)

/-- The `join` branch of handleParty (src/unnamed/part_000:404).
`partyIdParam` and `passParam` are the raw query parameters (`none` when
absent).  The rank-0 gate, the public check, the `pass not specified` check,
the 401 on password mismatch, the already-in-a-party conflict and the final
membership insert follow the source line by line.  In the source a failing
getPartyPass lacks a `return` and execution continues with the zero value;
here the pass lookup succeeds whenever the preceding public lookup did, so
that branch is vacuous and the zero-value continuation is written as
`getD ""`. -/
def handlePartyJoin (db : Db) (game uuid : String) (rank : Int)
    (partyIdParam passParam : Option String) : ApiResult × Db :=
  match partyIdParam with
  | none => (ApiResult.badRequest "partyId not specified", db)
  | some pidStr =>
    match atoi pidStr with
    | none => (ApiResult.badRequest "invalid partyId value", db)
    | some partyId =>
      if rank == 0 then
        match readPartyPublic db partyId with
        | none => (ApiResult.internalError, db)
        | some isPublic =>
          if !isPublic then
            match passParam with
            | none => (ApiResult.badRequest "pass not specified", db)
            | some pass =>
              let partyPass := (readPartyPass db partyId).getD ""
              if partyPass != "" && pass != partyPass then
                (ApiResult.unauthorized, db)
              else
                handlePartyJoinFinish db game uuid partyId
          else
            handlePartyJoinFinish db game uuid partyId
      else
        handlePartyJoinFinish db game uuid partyId

/-- The `kick` side of the `kick`/`transfer` branch of handleParty
(src/unnamed/part_000:467): requester must be in a party, must be its owner,
the target must be specified and in the same party; then the target's
membership is cleared. -/
def handlePartyKick (db : Db) (game uuid : String)
    (playerParam : Option String) : ApiResult × Db :=
  let partyId := readPlayerPartyId db game uuid
  if partyId == 0 then
    (ApiResult.badRequest "player not in a party", db)
  else
    match readPartyOwnerUuid db partyId with
    | none => (ApiResult.internalError, db)
    | some ownerUuid =>
      if ownerUuid != uuid then
        (ApiResult.badRequest "attempted party kick non-owner", db)
      else
        match playerParam with
        | none => (ApiResult.badRequest "player not specified", db)
        | some playerUuid =>
          let playerPartyId := readPlayerPartyId db game playerUuid
          if playerPartyId != partyId then
            (ApiResult.badRequest "specified player to kick not in same party", db)
          else
            (ApiResult.ok "ok", clearPlayerParty db game playerUuid)

/-! ## Protocol dispatcher (src/session.go: Session.processMsgs / processMsg)

Go strings are byte slices and strings.Split works on bytes, so frames,
sub-messages and fields are modelled as byte lists (`Bytes`); this keeps
invalid-UTF-8 frames representable.  Command handlers (handleI, handleName,
handlePloc, handleGSay, handlePSay, handlePt, handleEp, handleEl) live in a
file outside the snapshot; they are oracle inputs (`Handlers`) returning an
optional error, which is all the dispatch skeleton observes of them. -/

/-- A wire-level byte string. -/
abbrev Bytes := List Nat

/-- UTF-8 encoding of one character (RFC 3629), used to spell Go string
literals as byte lists. -/
def charUtf8 (c : Char) : List Nat :=
  let n := c.toNat
  if n < 0x80 then [n]
  else if n < 0x800 then [0xC0 + n / 0x40, 0x80 + n % 0x40]
  else if n < 0x10000 then
    [0xE0 + n / 0x1000, 0x80 + n / 0x40 % 0x40, 0x80 + n % 0x40]
  else
    [0xF0 + n / 0x40000, 0x80 + n / 0x1000 % 0x40, 0x80 + n / 0x40 % 0x40,
      0x80 + n % 0x40]

/-- The bytes of a Go string literal. -/
def strBytes (s : String) : Bytes :=
  s.data.flatMap charUtf8

/-- Whether `b` is a UTF-8 continuation byte (0x80..0xBF). -/
def contByte (b : Nat) : Bool :=
  0x80 ≤ b && b ≤ 0xBF

/-- Fueled worker for `utf8Valid`; the fuel is an upper bound on the number
of sequences and every step consumes at least one byte, so fuel = length
never runs out. -/
def utf8ValidGo : Nat → Bytes → Bool
  | _, [] => true
  | 0, _ :: _ => false
  | fuel + 1, b :: rest =>
    if b ≤ 0x7F then utf8ValidGo fuel rest
    else if b < 0xC2 then false
    else if b ≤ 0xDF then
      match rest with
      | b1 :: rest2 => contByte b1 && utf8ValidGo fuel rest2
      | [] => false
    else if b ≤ 0xEF then
      match rest with
      | b1 :: b2 :: rest3 =>
        (if b == 0xE0 then 0xA0 ≤ b1 && b1 ≤ 0xBF
         else if b == 0xED then 0x80 ≤ b1 && b1 ≤ 0x9F
         else contByte b1) && contByte b2 && utf8ValidGo fuel rest3
      | _ => false
    else if b ≤ 0xF4 then
      match rest with
      | b1 :: b2 :: b3 :: rest4 =>
        (if b == 0xF0 then 0x90 ≤ b1 && b1 ≤ 0xBF
         else if b == 0xF4 then 0x80 ≤ b1 && b1 ≤ 0x8F
         else contByte b1) && contByte b2 && contByte b3 && utf8ValidGo fuel rest4
      | _ => false
    else false

/-- utf8.Valid (Go standard library): whether the bytes are well-formed
UTF-8 (shortest forms only, no surrogates, max U+10FFFF). -/
def utf8Valid (l : Bytes) : Bool :=
  utf8ValidGo l.length l

/-- Whether `sep` is an initial segment of `l`. -/
def leadsWith : Bytes → Bytes → Bool
  | [], _ => true
  | _ :: _, [] => false
  | s :: ss, x :: xs => s == x && leadsWith ss xs

/-- Fueled worker for `splitBytes`; each step consumes at least one byte of
the remaining input (the separator is nonempty), so fuel = length suffices. -/
def splitGo (sep : Bytes) : Nat → Bytes → Bytes → List Bytes
  | _, [], acc => [acc.reverse]
  | 0, rest, acc => [acc.reverse ++ rest]
  | fuel + 1, x :: xs, acc =>
    if leadsWith sep (x :: xs) then
      acc.reverse :: splitGo sep fuel (List.drop sep.length (x :: xs)) []
    else
      splitGo sep fuel xs (x :: acc)

/-- strings.Split (Go standard library) on byte strings, for a nonempty
separator: splits around each non-overlapping occurrence, left to right.
(The empty-separator per-rune case of strings.Split is never used by the
dispatcher, whose separators are fixed nonempty delimiter strings.) -/
def splitBytes (sep l : Bytes) : List Bytes :=
  if sep.isEmpty then [l] else splitGo sep l.length l []

/-- The per-command handlers reachable from Session.processMsg.  Their
bodies are outside the snapshot; the dispatcher only observes the returned
error (`none` = success, `some e` = the error value). -/
structure Handlers where
  handleI : List Bytes → Option Bytes
  handleName : List Bytes → Option Bytes
  handlePloc : List Bytes → Option Bytes
  handleGSay : List Bytes → Option Bytes
  handlePSay : List Bytes → Option Bytes
  handlePt : List Bytes → Option Bytes
  handleEp : List Bytes → Option Bytes
  handleEl : List Bytes → Option Bytes

/-- Result of dispatching one sub-message: the returned error if any, the
frames pushed to the sender's own queue, and the access-log entry written on
success. -/
structure MsgOut where
  err : Option Bytes
  sendsToSender : List Bytes
  logged : List Bytes
deriving DecidableEq

/-- The common tail of Session.processMsg: on handler failure the error is
returned; on success the message is written to the log. -/
def processMsgResult (msgStr : Bytes) (e : Option Bytes) (sends : List Bytes) :
    MsgOut :=
  match e with
  | some er => { err := some er, sendsToSender := sends, logged := [] }
  | none => { err := none, sendsToSender := sends, logged := [msgStr] }

/-- Session.processMsg (src/session.go:218): split the sub-message into
fields on `delim` and route on the command; unknown commands return the
sub-message itself as the error; a failing `pt` handler additionally sends
"pt"+delim+"null" back to the sender. -/
def processMsg (env : Handlers) (delim : Bytes) (msgStr : Bytes) : MsgOut :=
  match splitBytes delim msgStr with
  | [] => { err := some msgStr, sendsToSender := [], logged := [] }
  | cmd :: rest =>
    if cmd == strBytes "i" then
      processMsgResult msgStr (env.handleI (cmd :: rest)) []
    else if cmd == strBytes "name" then
      processMsgResult msgStr (env.handleName (cmd :: rest)) []
    else if cmd == strBytes "ploc" then
      processMsgResult msgStr (env.handlePloc (cmd :: rest)) []
    else if cmd == strBytes "gsay" then
      processMsgResult msgStr (env.handleGSay (cmd :: rest)) []
    else if cmd == strBytes "psay" then
      processMsgResult msgStr (env.handlePSay (cmd :: rest)) []
    else if cmd == strBytes "pt" then
      processMsgResult msgStr (env.handlePt (cmd :: rest))
        (if (env.handlePt (cmd :: rest)).isSome then
          [strBytes "pt" ++ delim ++ strBytes "null"]
        else [])
    else if cmd == strBytes "ep" then
      processMsgResult msgStr (env.handleEp (cmd :: rest)) []
    else if cmd == strBytes "el" then
      processMsgResult msgStr (env.handleEl (cmd :: rest)) []
    else
      { err := some msgStr, sendsToSender := [], logged := [] }

/-- The accumulated outcome of one frame: collected errors, frames sent back
to the sender, access-log lines, and the sub-messages that were dispatched
(each one handed to processMsg). -/
structure FrameOut where
  errs : List Bytes
  sends : List Bytes
  logged : List Bytes
  dispatched : List Bytes
deriving DecidableEq

/-- The dispatch loop of Session.processMsgs over the already-split
sub-messages: every sub-message is processed and its outcome appended. -/
def processSubMsgs (env : Handlers) (delim : Bytes) (msgs : List Bytes) :
    FrameOut :=
  msgs.foldl
    (fun acc m =>
      let r := processMsg env delim m
      { errs := acc.errs ++ r.err.toList
        sends := acc.sends ++ r.sendsToSender
        logged := acc.logged ++ r.logged
        dispatched := acc.dispatched ++ [m] })
    { errs := [], sends := [], logged := [], dispatched := [] }

/-- Session.processMsgs (src/session.go:185): size check (> 4096 bytes),
byte-range check (any byte below 0x20), UTF-8 validity check — each failure
returns that single error with nothing dispatched — then split on the
message delimiter and dispatch every sub-message. -/
def processMsgs (env : Handlers) (delim mdelim : Bytes) (data : Bytes) :
    FrameOut :=
  if 4096 < data.length then
    { errs := [strBytes "bad request size"], sends := [], logged := [],
      dispatched := [] }
  else if data.any (fun v => v < 32) then
    { errs := [strBytes "bad byte sequence"], sends := [], logged := [],
      dispatched := [] }
  else if !(utf8Valid data) then
    { errs := [strBytes "invalid UTF-8"], sends := [], logged := [],
      dispatched := [] }
  else
    processSubMsgs env delim (splitBytes mdelim data)

/-! ## Channel-driven session actor (src/session.go)

The Session struct's maps become lists: `clients` is the key set of
`map[*SessionClient]bool` (pointers become allocation tags `ref`), `usedIds`
the true keys of the id map, `sessionClients` the package-level uuid map, and
`queues` the contents of each client's buffered send channel (capacity 256).
`getPlayerInfo`/`readPlayerGameData` resolution happens outside the select
loop's state, so `ConnInfo` carries the resolved values.  The delimiter
constants and maxID live in a file outside the snapshot and are parameters. -/

namespace Actor

/-- A connection intent as read from the connect channel, together with the
identity already resolved by getPlayerInfo and the game data read by
readPlayerGameData. -/
structure ConnInfo where
  ip : String
  online : Bool
  uuid : String
  name : String
  rank : Int
  badge : String
  banned : Bool        -- accessType.isBanned()
  shadowBanned : Bool  -- accessType.isShadowBanned()
  account : Bool
  systemName : String
  spriteName : String
  spriteIndex : Int
deriving DecidableEq

/-- SessionClient (the actor variant): `ref` is the allocation identity of
the Go pointer. -/
structure SessionClient where
  ref : Nat
  ip : String
  id : Nat
  online : Bool
  account : Bool
  name : String
  uuid : String
  rank : Int
  badge : String
  systemName : String
  spriteName : String
  spriteIndex : Int
deriving DecidableEq

/-- The state owned by Session.run plus the package-level `sessionClients`
map.  `queues` maps a client ref to its send-channel contents; `closedRefs`
records closed channels; `flushed` records updatePlayerGameData calls;
`errLog`/`okLog` are writeErrLog/writeLog. -/
structure SessionState where
  clients : List SessionClient
  usedIds : List Nat
  queues : List (Nat × List Bytes)
  closedRefs : List Nat
  sessionClients : List (String × Nat)
  flushed : List String
  errLog : List Bytes
  okLog : List Bytes
  nextRef : Nat
deriving DecidableEq

/-- Contents of the send channel of the client with the given ref. -/
def lookupQueue (queues : List (Nat × List Bytes)) (ref : Nat) : List Bytes :=
  match queues.find? (fun kv => kv.1 == ref) with
  | some kv => kv.2
  | none => []

/-- Enqueue one frame on the send channel of the given ref. -/
def pushQueue (queues : List (Nat × List Bytes)) (ref : Nat) (m : Bytes) :
    List (Nat × List Bytes) :=
  queues.map (fun kv => if kv.1 == ref then (kv.1, kv.2 ++ [m]) else kv)

/-- Session.deleteClient (src/session.go:177): flush game data, free the id,
remove the client from both maps, close its send channel. -/
def deleteClient (st : SessionState) (c : SessionClient) : SessionState :=
  { st with
    flushed := st.flushed ++ [c.uuid]
    usedIds := st.usedIds.erase c.id
    clients := st.clients.filter (fun d => !(d.ref == c.ref))
    sessionClients := st.sessionClients.filter (fun kv => !(kv.1 == c.uuid))
    closedRefs := st.closedRefs ++ [c.ref] }

/-- One iteration of the Session.broadcast loop: the non-blocking select —
enqueue when the 256-slot channel has room, otherwise deleteClient. -/
def broadcastStep (data : Bytes) (st : SessionState) (c : SessionClient) :
    SessionState :=
  if (lookupQueue st.queues c.ref).length < 256 then
    { st with queues := pushQueue st.queues c.ref data }
  else
    deleteClient st c

/-- Session.broadcast (src/session.go:167): iterate over the registered
clients, non-blocking send with eviction on a full queue. -/
def broadcast (st : SessionState) (data : Bytes) : SessionState :=
  st.clients.foldl (broadcastStep data) st

/-- The id-allocation loop of Session.run: `for i := 1; i <= maxID; i++`
scanning for the first unused id, with `count` iterations left and `i` the
current candidate; 0 means the scan fell through (room full). -/
def scanFreeId (used : List Nat) : Nat → Nat → Nat
  | 0, _ => 0
  | count + 1, i => if used.contains i then scanFreeId used count (i + 1) else i

/-- The allocated id for the configured space 1..maxID: the smallest id not
in `used`, or 0 when all are taken. -/
def smallestFreeId (maxID : Nat) (used : List Nat) : Nat :=
  scanFreeId used maxID 1

/-- The "your id is %id%" greeting ("s" message) pushed at registration;
numbers are rendered as by strconv.Itoa and `btoa` (a helper outside the
snapshot) renders the account flag as "1"/"0". -/
def helloMsg (delim : Bytes) (id : Nat) (uuid : String) (rank : Int)
    (account : Bool) (badge : String) : Bytes :=
  strBytes "s" ++ delim ++ strBytes (toString id) ++ delim ++ strBytes uuid ++
    delim ++ strBytes (toString rank) ++ delim ++
    (if account then strBytes "1" else strBytes "0") ++ delim ++ strBytes badge

/-- The connect case of Session.run after the ban checks
(src/session.go:97-147): count same-address clients and reject at ≥ 3, scan
for a free id and reject at 0, then create the client, start its pumps, push
the greeting and register it in all three structures. -/
def connectAfterBanCheck (maxID : Nat) (delim : Bytes) (st : SessionState)
    (conn : ConnInfo) : SessionState :=
  let sameIp := (st.clients.filter (fun c => c.ip == conn.ip)).length
  if sameIp ≥ 3 then
    { st with errLog := st.errLog ++ [strBytes "too many connections"] }
  else
    let id := smallestFreeId maxID st.usedIds
    if id == 0 then
      { st with errLog := st.errLog ++ [strBytes "room is full"] }
    else
      let client : SessionClient :=
        { ref := st.nextRef, ip := conn.ip, id := id, online := conn.online,
          account := conn.account, name := conn.name, uuid := conn.uuid,
          rank := conn.rank, badge := conn.badge, systemName := conn.systemName,
          spriteName := conn.spriteName, spriteIndex := conn.spriteIndex }
      { st with
        queues := (st.nextRef,
          [helloMsg delim id conn.uuid conn.rank conn.account conn.badge]) ::
            st.queues
        usedIds := id :: st.usedIds
        clients := client :: st.clients
        sessionClients := (conn.uuid, st.nextRef) ::
          st.sessionClients.filter (fun kv => !(kv.1 == conn.uuid))
        okLog := st.okLog ++ [strBytes "connect"]
        nextRef := st.nextRef + 1 }

/-- The connect case of Session.run (src/session.go:87-147): shadow-banned
connections are forced offline, banned ones are dropped, then
`connectAfterBanCheck`. -/
def connect (maxID : Nat) (delim : Bytes) (st : SessionState)
    (conn : ConnInfo) : SessionState :=
  if conn.shadowBanned then
    connectAfterBanCheck maxID delim
      { st with errLog := st.errLog ++
          [strBytes "player is shadowbanned, setting connection to offline"] }
      { conn with online := false }
  else if conn.banned then
    { st with errLog := st.errLog ++ [strBytes "player is banned, aborting connection"] }
  else
    connectAfterBanCheck maxID delim st conn

/-- One intent consumed by the Session.run select loop. -/
inductive Intent where
  | connect (conn : ConnInfo)
  | unregister (ref : Nat)
  | message (senderRef : Nat) (data : Bytes)
deriving DecidableEq

/-- One iteration of the Session.run select loop (src/session.go:83):
connect registration, unregister (deleteClient when registered, an error log
otherwise), and message processing (errors are logged, sender-directed
responses are enqueued on the sender's channel; registration state is not
touched). -/
def step (maxID : Nat) (env : Handlers) (delim mdelim : Bytes)
    (st : SessionState) : Intent → SessionState
  | .connect conn => connect maxID delim st conn
  | .unregister ref =>
    match st.clients.find? (fun c => c.ref == ref) with
    | some c =>
      let st2 := deleteClient st c
      { st2 with okLog := st2.okLog ++ [strBytes "disconnect"] }
    | none =>
      { st with errLog := st.errLog ++ [strBytes "attempted to unregister nil client"] }
  | .message senderRef data =>
    let out := processMsgs env delim mdelim data
    { st with
      errLog := st.errLog ++ out.errs
      okLog := st.okLog ++ out.logged
      queues := out.sends.foldl (fun q m => pushQueue q senderRef m) st.queues }

/-- The state of a freshly constructed Session (newSessionWs). -/
def initState : SessionState :=
  { clients := [], usedIds := [], queues := [], closedRefs := [],
    sessionClients := [], flushed := [], errLog := [], okLog := [], nextRef := 0 }

/-- A run of the actor over a list of intents from the initial state. -/
def run (maxID : Nat) (env : Handlers) (delim mdelim : Bytes)
    (intents : List Intent) : SessionState :=
  intents.foldl (step maxID env delim mdelim) initState

end Actor

/-! ## Concurrent-map session variant (src/server/session.go)

`clients` is the sync.Map keyed by uuid; `lastId` is Session.lastId.
Identity resolution (getPlayerDataFromToken / getOrCreatePlayerData) is
external and carried in `JoinInfo`. -/

namespace Server

/-- joinSessionWs input after identity resolution. -/
structure JoinInfo where
  ip : String
  uuid : String
  name : String
  rank : Int
  badge : String
  banned : Bool
  muted : Bool
  account : Bool
deriving DecidableEq

/-- SessionClient (the server-package variant); `ref` is the allocation
identity of the Go pointer. -/
structure SessionClient where
  ref : Nat
  ip : String
  id : Nat
  uuid : String
  name : String
  rank : Int
  badge : String
  muted : Bool
  account : Bool
deriving DecidableEq

/-- The server-package session state: the uuid-keyed client map and the
monotonically increasing id counter.  `disconnected` records the refs whose
disconnect ran. -/
structure ServerState where
  clients : List (String × SessionClient)
  lastId : Nat
  nextRef : Nat
  disconnected : List Nat
  errLog : List String
  okLog : List String
deriving DecidableEq

/-- Modelled from the spec: `SessionClient.disconnect` — the method body is
in a server-package file outside the snapshot; per the spec's Disconnect
operation it "removes the record from the map" and closes the connection
(recorded in `disconnected`). -/
def disconnect (st : ServerState) (c : SessionClient) : ServerState :=
  { st with
    clients := st.clients.filter (fun kv => !(kv.2.ref == c.ref))
    disconnected := st.disconnected ++ [c.ref] }

/-- joinSessionWs (src/server/session.go:64): drop banned players, run
disconnect on a prior record for the same uuid, count same-address clients
and reject at > 3, default the badge, take `id = lastId` and increment, then
store the client under its uuid. -/
def joinSessionWs (st : ServerState) (conn : JoinInfo) : ServerState :=
  if conn.banned then
    { st with errLog := st.errLog ++ ["player is banned"] }
  else
    let st1 : ServerState :=
      match st.clients.find? (fun kv => kv.1 == conn.uuid) with
      | some kv => disconnect st kv.2
      | none => st
    let sameIp := (st1.clients.filter (fun kv => kv.2.ip == conn.ip)).length
    if sameIp > 3 then
      { st1 with errLog := st1.errLog ++ ["too many connections from ip"] }
    else
      let badge := if conn.badge == "" then "null" else conn.badge
      let client : SessionClient :=
        { ref := st1.nextRef, ip := conn.ip, id := st1.lastId, uuid := conn.uuid,
          name := conn.name, rank := conn.rank, badge := badge,
          muted := conn.muted, account := conn.account }
      { st1 with
        clients := (conn.uuid, client) ::
          st1.clients.filter (fun kv => !(kv.1 == conn.uuid))
        lastId := st1.lastId + 1
        nextRef := st1.nextRef + 1
        okLog := st1.okLog ++ ["connect"] }

/-- A client's connection going away: its disconnect runs (modelled from the
spec, as for `disconnect`); a no-op when the uuid has no record. -/
def unregisterUuid (st : ServerState) (uuid : String) : ServerState :=
  match st.clients.find? (fun kv => kv.1 == uuid) with
  | some kv => disconnect st kv.2
  | none => st

/-- The zero Session of the server package. -/
def initState : ServerState :=
  { clients := [], lastId := 0, nextRef := 0, disconnected := [],
    errLog := [], okLog := [] }

end Server

/-! ## Concrete instances used by witnesses and counterexamples -/

/-- A two-member public party owned by uuidA (kick scenarios). -/
def dbKick : Db :=
  { parties := [{ id := 1, game := "ynoGame", owner := "uuidA", name := "Explorers",
                  isPublic := true, pass := "", theme := "t", description := "" }]
    partyMembers := [{ id := 1, partyId := 1, uuid := "uuidA" },
                     { id := 2, partyId := 1, uuid := "uuidB" }]
    playerRank := fun _ => 0
    nextMemberId := 3 }

/-- A private party with password "xyz" owned by uuidA (join scenarios). -/
def dbJoin : Db :=
  { parties := [{ id := 1, game := "g", owner := "uuidA", name := "Secret",
                  isPublic := false, pass := "xyz", theme := "t", description := "" }]
    partyMembers := [{ id := 1, partyId := 1, uuid := "uuidA" }]
    playerRank := fun _ => 0
    nextMemberId := 2 }

/-- A private party with an empty stored password owned by uuidA. -/
def dbJoinOpen : Db :=
  { parties := [{ id := 1, game := "g", owner := "uuidA", name := "Open",
                  isPublic := false, pass := "", theme := "t", description := "" }]
    partyMembers := [{ id := 1, partyId := 1, uuid := "uuidA" }]
    playerRank := fun _ => 0
    nextMemberId := 2 }

/-- The party row of `dbLeave`. -/
def PLeave : PartyRow :=
  { id := 1, game := "g", owner := "uuidA", name := "party", isPublic := true,
    pass := "", theme := "t", description := "" }

/-- A three-member party owned by uuidA; uuidB has rank 1, only uuidC is
online (leave scenarios). -/
def dbLeave : Db :=
  { parties := [PLeave]
    partyMembers := [⟨1, 1, "uuidA"⟩, ⟨2, 1, "uuidB"⟩, ⟨3, 1, "uuidC"⟩]
    playerRank := fun u => if u == "uuidB" then 1 else 0
    nextMemberId := 4 }

/-- An oracle handler table whose pt handler fails and whose other handlers
succeed. -/
def env0 : Handlers :=
  { handleI := fun _ => none
    handleName := fun _ => none
    handlePloc := fun _ => none
    handleGSay := fun _ => none
    handlePSay := fun _ => none
    handlePt := fun _ => some (strBytes "errNoParty")
    handleEp := fun _ => none
    handleEl := fun _ => none }

/-- A concrete field delimiter (the delimiter constants live outside the
snapshot; the theorems are delimiter-generic). -/
def delim0 : Bytes := [255]

/-- A concrete sub-message delimiter. -/
def mdelim0 : Bytes := [254]

/-- An actor connect intent for the given uuid and address: a guest-like
resolved identity, not banned. -/
def connOf (uuid ip : String) : Actor.ConnInfo :=
  { ip := ip, online := true, uuid := uuid, name := uuid, rank := 0,
    badge := "null", banned := false, shadowBanned := false, account := false,
    systemName := "", spriteName := "", spriteIndex := 0 }

/-- A server-variant join request for the given uuid and address. -/
def joinOf (uuid ip : String) : Server.JoinInfo :=
  { ip := ip, uuid := uuid, name := uuid, rank := 0, badge := "",
    banned := false, muted := false, account := false }


/-- Two actor connect intents resolving to the same identity from different
addresses. -/
def connDup1 : Actor.ConnInfo := connOf "uuidDup" "ip1"

/-- See `connDup1`. -/
def connDup2 : Actor.ConnInfo := connOf "uuidDup" "ip2"

/-- A server-variant state holding one registered client for uuidDup. -/
def sstC1 : Server.ServerState :=
  Server.joinSessionWs Server.initState (joinOf "uuidDup" "ip1")

/-- The client record registered in `sstC1`. -/
def c1old : Server.SessionClient :=
  { ref := 0, ip := "ip1", id := 0, uuid := "uuidDup", name := "uuidDup",
    rank := 0, badge := "null", muted := false, account := false }

/-- A server-variant state reached by connecting a, b, c and then losing b:
ids 0 and 2 are held, id 1 is free. -/
def c2pre : Server.ServerState :=
  Server.unregisterUuid
    (Server.joinSessionWs
      (Server.joinSessionWs (Server.joinSessionWs Server.initState (joinOf "a" "ip1"))
        (joinOf "b" "ip2"))
      (joinOf "c" "ip3"))
    "b"

/-- A server-variant run of four connects from the same address. -/
def c9run : Server.ServerState :=
  Server.joinSessionWs
    (Server.joinSessionWs
      (Server.joinSessionWs (Server.joinSessionWs Server.initState (joinOf "u1" "ipX"))
        (joinOf "u2" "ipX"))
      (joinOf "u3" "ipX"))
    (joinOf "u4" "ipX")

/-- An actor state with ids 1 and 2 held and no clients. -/
def stW : Actor.SessionState :=
  { clients := [], usedIds := [1, 2], queues := [], closedRefs := [],
    sessionClients := [], flushed := [], errLog := [], okLog := [], nextRef := 0 }

/-- A registered client whose send channel is full (see `stB`). -/
def cFull : Actor.SessionClient :=
  { ref := 1, ip := "ip1", id := 5, online := true, account := false, name := "f",
    uuid := "uuidF", rank := 0, badge := "null", systemName := "", spriteName := "",
    spriteIndex := 0 }

/-- A registered client with an empty send channel (see `stB`). -/
def cOk : Actor.SessionClient :=
  { ref := 2, ip := "ip2", id := 6, online := true, account := false, name := "o",
    uuid := "uuidO", rank := 0, badge := "null", systemName := "", spriteName := "",
    spriteIndex := 0 }

/-- An actor state where `cFull`'s 256-slot channel is at capacity and
`cOk`'s is empty. -/
def stB : Actor.SessionState :=
  { clients := [cFull, cOk], usedIds := [5, 6],
    queues := [(1, List.replicate 256 [65]), (2, [])], closedRefs := [],
    sessionClients := [("uuidF", 1), ("uuidO", 2)], flushed := [], errLog := [],
    okLog := [], nextRef := 3 }

/-- An actor state with three registered clients sharing the address ipX. -/
def st9 : Actor.SessionState :=
  { clients :=
      [{ ref := 1, ip := "ipX", id := 1, online := true, account := false,
         name := "a", uuid := "u1", rank := 0, badge := "null", systemName := "",
         spriteName := "", spriteIndex := 0 },
       { ref := 2, ip := "ipX", id := 2, online := true, account := false,
         name := "b", uuid := "u2", rank := 0, badge := "null", systemName := "",
         spriteName := "", spriteIndex := 0 },
       { ref := 3, ip := "ipX", id := 3, online := true, account := false,
         name := "c", uuid := "u3", rank := 0, badge := "null", systemName := "",
         spriteName := "", spriteIndex := 0 }]
    usedIds := [1, 2, 3], queues := [(1, []), (2, []), (3, [])], closedRefs := [],
    sessionClients := [("u1", 1), ("u2", 2), ("u3", 3)], flushed := [], errLog := [],
    okLog := [], nextRef := 4 }

/-- A server-variant state with three registered clients sharing ipX. -/
def sst9 : Server.ServerState :=
  Server.joinSessionWs
    (Server.joinSessionWs (Server.joinSessionWs Server.initState (joinOf "u1" "ipX"))
      (joinOf "u2" "ipX"))
    (joinOf "u3" "ipX")


/-! ## Theorems

### Order lemmas for the member listing -/

theorem memberLE_refl (f : String → Int) (a : PartyMemberRow) : memberLE f a a :=
  Or.inr ⟨rfl, Nat.le_refl _⟩

theorem memberLE_total (f : String → Int) (a b : PartyMemberRow) :
    memberLE f a b ∨ memberLE f b a := by
  unfold memberLE
  rcases lt_trichotomy (f a.uuid) (f b.uuid) with h | h | h
  · exact Or.inr (Or.inl h)
  · rcases Nat.le_total a.id b.id with h2 | h2
    · exact Or.inl (Or.inr ⟨h, h2⟩)
    · exact Or.inr (Or.inr ⟨h.symm, h2⟩)
  · exact Or.inl (Or.inl h)

theorem memberLE_trans (f : String → Int) (a b c : PartyMemberRow) :
    memberLE f a b → memberLE f b c → memberLE f a c := by
  unfold memberLE
  rintro (h1 | ⟨h1, h1a⟩) (h2 | ⟨h2, h2a⟩)
  · exact Or.inl (h2.trans h1)
  · exact Or.inl (h2 ▸ h1)
  · exact Or.inl (by rw [h1]; exact h2)
  · exact Or.inr ⟨h1.trans h2, h1a.trans h2a⟩

instance memberLE_isTotal (f : String → Int) : IsTotal PartyMemberRow (memberLE f) :=
  ⟨memberLE_total f⟩

instance memberLE_isTrans (f : String → Int) : IsTrans PartyMemberRow (memberLE f) :=
  ⟨fun a b c => memberLE_trans f a b c⟩

theorem find?_min_of_sorted {α : Type} {r : α → α → Prop} {p : α → Bool}
    (hrefl : ∀ x, r x x) :
    ∀ {l : List α}, l.Sorted r → ∀ (a : α), l.find? p = some a →
      ∀ b ∈ l, p b → r a b := by
  intro l
  induction l with
  | nil => intro _ a h; simp [List.find?] at h
  | cons x xs ih =>
    intro hs a hfind b hb hpb
    rw [List.sorted_cons] at hs
    by_cases hx : p x
    · rw [List.find?_cons_of_pos _ hx] at hfind
      simp only [Option.some.injEq] at hfind
      subst hfind
      rcases List.mem_cons.mp hb with rfl | hb2
      · exact hrefl _
      · exact hs.1 b hb2
    · rw [List.find?_cons_of_neg _ hx] at hfind
      rcases List.mem_cons.mp hb with rfl | hb2
      · rw [hpb] at hx; cases hx rfl
      · exact ih hs.2 a hfind b hb2 hpb

theorem head_min_of_sorted {α : Type} {r : α → α → Prop}
    (hrefl : ∀ x, r x x) :
    ∀ {l : List α}, l.Sorted r → ∀ (a : α), l.head? = some a →
      ∀ b ∈ l, r a b := by
  intro l
  cases l with
  | nil => intro _ a h; cases h
  | cons x xs =>
    intro hs a h
    simp only [List.head?_cons, Option.some.injEq] at h
    subst h
    intro b hb
    rcases List.mem_cons.mp hb with rfl | hb2
    · exact hrefl _
    · exact List.rel_of_sorted_cons hs b hb2

theorem find?_map_id_pres {pid : Int} {u : String} :
    ∀ (l : List PartyRow),
      (l.map (fun p => if p.id == pid then { p with owner := u } else p)).find?
          (fun p => p.id == pid) =
        (l.find? (fun p => p.id == pid)).map
          (fun p => if p.id == pid then { p with owner := u } else p) := by
  intro l
  induction l with
  | nil => rfl
  | cons x xs ih =>
    by_cases h : (x.id == pid) = true
    · have h2 : (((if x.id == pid then { x with owner := u } else x)).id == pid) = true := by
        rw [if_pos h]; exact h
      rw [List.map_cons,
        @List.find?_cons_of_pos _ (fun (p : PartyRow) => p.id == pid) _ _ h2,
        @List.find?_cons_of_pos _ (fun (p : PartyRow) => p.id == pid) _ _ h]
      simp [if_pos h]
    · have hfalse : ¬ ((x.id == pid) = true) := h
      have h2 : ¬ (((if x.id == pid then { x with owner := u } else x)).id == pid) = true := by
        rw [if_neg hfalse]; exact hfalse
      rw [List.map_cons,
        @List.find?_cons_of_neg _ (fun (p : PartyRow) => p.id == pid) _ _ h2,
        @List.find?_cons_of_neg _ (fun (p : PartyRow) => p.id == pid) _ _ hfalse]
      exact ih

/-! ### C4 — Leave: orphaned-party deletion and ownership reassignment -/

/-- C4: For every Leave by a party member: if the party becomes empty it is
deleted immediately and no ownership reassignment runs; otherwise, if the
leaver was the owner, ownership passes to the first currently-online member
in rank-descending then join-order (earliest membership) order, and if no
member is online, to the highest-rank member overall tie-broken by earliest
membership.  The preference is stated as optimality under `memberLE` (rank
descending, then earlier `partyMembers.id`) among the remaining members,
restricted to the online ones when any member is online. -/
theorem leave_owner_reassignment
    (db : Db) (game : String) (hub : List String) (pid : Int) (leaver : String)
    (P : PartyRow)
    (hfind : db.parties.find? (fun p => p.id == pid) = some P) :
    (((clearPlayerParty db game leaver).partyMembers.filter
        (fun pm => pm.partyId == pid)) = [] →
      handlePartyMemberLeave db game hub pid leaver =
        some { clearPlayerParty db game leaver with
               parties := db.parties.filter (fun p => !(p.id == pid)) } ∧
      (db.parties.filter (fun p => !(p.id == pid))).find?
          (fun p => p.id == pid) = none)
    ∧
    (((clearPlayerParty db game leaver).partyMembers.filter
        (fun pm => pm.partyId == pid)) ≠ [] → leaver = P.owner →
      ∃ pmu,
        pmu ∈ ((clearPlayerParty db game leaver).partyMembers.filter
          (fun pm => pm.partyId == pid)) ∧
        handlePartyMemberLeave db game hub pid leaver =
          some (setPartyOwner (clearPlayerParty db game leaver) pid pmu.uuid) ∧
        (setPartyOwner (clearPlayerParty db game leaver) pid pmu.uuid).parties.find?
            (fun p => p.id == pid) = some { P with owner := pmu.uuid } ∧
        ((∃ pm ∈ ((clearPlayerParty db game leaver).partyMembers.filter
            (fun pm => pm.partyId == pid)), hub.contains pm.uuid) →
          hub.contains pmu.uuid = true ∧
          ∀ pm ∈ ((clearPlayerParty db game leaver).partyMembers.filter
            (fun pm => pm.partyId == pid)), hub.contains pm.uuid →
            memberLE db.playerRank pmu pm) ∧
        ((∀ pm ∈ ((clearPlayerParty db game leaver).partyMembers.filter
            (fun pm => pm.partyId == pid)), ¬ (hub.contains pm.uuid = true)) →
          ∀ pm ∈ ((clearPlayerParty db game leaver).partyMembers.filter
            (fun pm => pm.partyId == pid)), memberLE db.playerRank pmu pm)) := by
  have hown : readPartyOwnerUuid db pid = some P.owner := by
    simp [readPartyOwnerUuid, hfind]
  constructor
  · -- (a) the party emptied
    intro hrem
    have hcount : readPartyMemberCount (clearPlayerParty db game leaver) pid = 0 := by
      simp [readPartyMemberCount, hrem]
    constructor
    · simp only [handlePartyMemberLeave, hown, checkDeleteOrphanedParty, hcount,
        if_pos rfl]
      rfl
    · rw [List.find?_eq_none]
      intro p hp
      have h2 := (List.mem_filter.mp hp).2
      simpa using h2
  · -- (b) members remain, leaver was the owner
    intro hrem howner
    have hcount : ¬ (readPartyMemberCount (clearPlayerParty db game leaver) pid = 0) := by
      simp only [readPartyMemberCount, List.length_eq_zero]
      exact hrem
    have hguard : (leaver == P.owner) = true := beq_iff_eq.mpr howner
    have hrun : handlePartyMemberLeave db game hub pid leaver =
        some (assumeNextPartyOwner (clearPlayerParty db game leaver) hub pid) := by
      simp [handlePartyMemberLeave, hown, checkDeleteOrphanedParty, hcount, hguard]
    set db1 := clearPlayerParty db game leaver with hdb1
    set rem := db1.partyMembers.filter (fun pm => pm.partyId == pid) with hremdef
    set sortedRows := List.insertionSort (memberLE db.playerRank) rem with hsorted
    have hperm : List.Perm sortedRows rem := List.perm_insertionSort _ _
    have hsortedSorted : sortedRows.Sorted (memberLE db.playerRank) :=
      List.sorted_insertionSort _ _
    have hfmap : (sortedRows.map (fun pm => pm.uuid)).find? (fun u => hub.contains u) =
        (sortedRows.find? ((fun u => hub.contains u) ∘ (fun pm => pm.uuid))).map
          (fun pm => pm.uuid) := List.find?_map _ _
    have hread : readPartyMemberUuids db1 pid = sortedRows.map (fun pm => pm.uuid) := by
      rfl
    have howner_find : ∀ u : String,
        (setPartyOwner db1 pid u).parties.find? (fun p => p.id == pid) =
          some { P with owner := u } := by
      intro u
      have hPid : (P.id == pid) = true := by
        have := List.find?_some hfind
        simpa using this
      have hpar : (setPartyOwner db1 pid u).parties =
          db.parties.map (fun p => if p.id == pid then { p with owner := u } else p) := rfl
      rw [hpar, find?_map_id_pres, hfind, Option.map_some', if_pos hPid]
    cases hcase : sortedRows.find? ((fun u => hub.contains u) ∘ (fun pm => pm.uuid)) with
    | none =>
      have hnone : ∀ pm ∈ sortedRows, ¬ (hub.contains pm.uuid = true) := by
        intro pm hpm
        have := List.find?_eq_none.mp hcase pm hpm
        simpa [Function.comp] using this
      have hne : sortedRows ≠ [] := by
        intro hnil
        apply hrem
        have hpe : List.Perm rem ([] : List PartyMemberRow) := by
          rw [← hnil]; exact hperm.symm
        exact hpe.eq_nil
      obtain ⟨pmu0, hhead, hmem0⟩ :
          ∃ x, sortedRows.head? = some x ∧ x ∈ sortedRows := by
        cases hsr : sortedRows with
        | nil => exact absurd hsr hne
        | cons a t => exact ⟨a, by simp [hsr], by simp [hsr]⟩
      refine ⟨pmu0, hperm.mem_iff.mp hmem0, ?_, howner_find _, ?_, ?_⟩
      · rw [hrun]
        congr 1
        simp only [assumeNextPartyOwner, hread, hfmap, hcase, Option.map_none']
        rw [List.head?_map, hhead]
        rfl
      · intro hex
        exfalso
        rcases hex with ⟨pm, hpm, honline⟩
        exact hnone pm (hperm.mem_iff.mpr hpm) honline
      · intro _ pm hpm
        exact head_min_of_sorted (memberLE_refl db.playerRank) hsortedSorted pmu0 hhead pm
          (hperm.mem_iff.mpr hpm)
    | some pmu =>
      refine ⟨pmu, hperm.mem_iff.mp (List.mem_of_find?_eq_some hcase), ?_,
        howner_find _, ?_, ?_⟩
      · rw [hrun]
        congr 1
        simp only [assumeNextPartyOwner, hread, hfmap, hcase, Option.map_some']
      · intro _
        constructor
        · have := List.find?_some hcase
          simpa [Function.comp] using this
        · intro pm hpm honline
          exact find?_min_of_sorted (memberLE_refl db.playerRank) hsortedSorted pmu hcase pm
            (hperm.mem_iff.mpr hpm) honline
      · intro hall
        exfalso
        apply hall pmu (hperm.mem_iff.mp (List.mem_of_find?_eq_some hcase))
        have := List.find?_some hcase
        simpa [Function.comp] using this

/-- C4 witness: in `dbLeave` (members A, B with rank 1, C; only C online),
the owner A leaving hands ownership to C, the first online member in the
rank-then-join order — obtained by applying `leave_owner_reassignment` at
this concrete database. -/
theorem leave_owner_reassignment_witness :
    handlePartyMemberLeave dbLeave "g" ["uuidC"] 1 "uuidA" =
      some (setPartyOwner (clearPlayerParty dbLeave "g" "uuidA") 1 "uuidC") := by
  obtain ⟨ha, hb⟩ := leave_owner_reassignment dbLeave "g" ["uuidC"] 1 "uuidA" PLeave rfl
  obtain ⟨pmu, hmem, hres, hfind2, hon, hoff⟩ := hb (by decide) rfl
  have honline := hon ⟨⟨3, 1, "uuidC"⟩, by decide, by decide⟩
  have huuid : pmu.uuid = "uuidC" := by
    have h2 := honline.1
    simpa using h2
  rw [hres, huuid]

/-! ### C5 — Kick authorization -/

/-- C5 counterexample: in `dbKick` the owner uuidA targeting themself is
accepted — the kick succeeds, uuidA's membership row is deleted, and uuidA
is still recorded as the party's owner.  This refutes the claim that a kick
can never remove the owner (the owner targeting themself fails). -/
theorem kick_owner_self_cex :
    (handlePartyKick dbKick "ynoGame" "uuidA" (some "uuidA")).1 = ApiResult.ok "ok"
    ∧ ((handlePartyKick dbKick "ynoGame" "uuidA" (some "uuidA")).2.partyMembers.filter
        (fun pm => pm.uuid == "uuidA")) = []
    ∧ readPartyOwnerUuid (handlePartyKick dbKick "ynoGame" "uuidA" (some "uuidA")).2 1 =
        some "uuidA" :=
  ⟨rfl, rfl, rfl⟩

/-- C5 (amended): only the current owner's kick request proceeds — a
non-owner request fails with an authorization error — and a request whose
target is not in the requester's party fails; however the code does not
prevent the owner from targeting themself: an owner self-kick succeeds and
removes the owner's membership (while leaving the owner column unchanged). -/
theorem kick_authorization (db : Db) (game uuid : String) (pid : Int)
    (hin : readPlayerPartyId db game uuid = pid) (hpid : pid ≠ 0) :
    (∀ ownerUuid target, readPartyOwnerUuid db pid = some ownerUuid →
      ownerUuid ≠ uuid →
      handlePartyKick db game uuid target =
        (ApiResult.badRequest "attempted party kick non-owner", db))
    ∧
    (∀ target, readPartyOwnerUuid db pid = some uuid →
      readPlayerPartyId db game target ≠ pid →
      handlePartyKick db game uuid (some target) =
        (ApiResult.badRequest "specified player to kick not in same party", db))
    ∧
    (readPartyOwnerUuid db pid = some uuid →
      handlePartyKick db game uuid (some uuid) =
        (ApiResult.ok "ok", clearPlayerParty db game uuid)
      ∧
      (partyGame db pid = some game →
        ∀ pm ∈ (clearPlayerParty db game uuid).partyMembers,
          pm.partyId = pid → pm.uuid ≠ uuid)) := by
  have hb : (pid == 0) = false := by simpa using hpid
  refine ⟨?_, ?_, ?_⟩
  · intro ownerUuid target hownr hne
    have h1 : (ownerUuid != uuid) = true := bne_iff_ne.mpr hne
    simp [handlePartyKick, hin, hb, hownr, h1]
  · intro target hownr hne
    have h1 : (readPlayerPartyId db game target != pid) = true := bne_iff_ne.mpr hne
    simp [handlePartyKick, hin, hb, hownr, h1]
  · intro hownr
    constructor
    · simp [handlePartyKick, hin, hb, hownr]
    · intro hg pm hpm hpmid
      simp only [clearPlayerParty, List.mem_filter] at hpm
      intro hu
      rcases hpm with ⟨_, hcond⟩
      rw [hu, hpmid, hg] at hcond
      simp at hcond

/-- C5 witness: in `dbKick` a kick attempted by the non-owner uuidB fails
with the authorization error and leaves the database unchanged — obtained by
applying `kick_authorization` at this concrete database. -/
theorem kick_authorization_witness :
    handlePartyKick dbKick "ynoGame" "uuidB" (some "uuidA") =
      (ApiResult.badRequest "attempted party kick non-owner", dbKick) :=
  (kick_authorization dbKick "ynoGame" "uuidB" 1 (by decide) (by decide)).1
    "uuidA" (some "uuidA") (by decide) (by decide)

/-! ### C6 — Private-party password checks on join -/

/-- C6: joining a private (non-public) party: a non-empty stored password
with a differing supplied password yields the explicit 401 unauthorized
result with no membership created; an empty stored password admits any
supplied password with no comparison; a requester already in a party gets
the conflict error; and the unauthorized result is distinct from the 400
diagnostics used for validation failures. -/
theorem join_private_password (db : Db) (game uuid pidStr : String)
    (partyId : Int) (storedPass : String)
    (hpid : atoi pidStr = some partyId)
    (hpub : readPartyPublic db partyId = some false)
    (hpass : readPartyPass db partyId = some storedPass) :
    (∀ p : String, storedPass ≠ "" → p ≠ storedPass →
      handlePartyJoin db game uuid 0 (some pidStr) (some p) =
        (ApiResult.unauthorized, db))
    ∧
    (∀ p : String, storedPass = "" → readPlayerPartyId db game uuid = 0 →
      handlePartyJoin db game uuid 0 (some pidStr) (some p) =
        (ApiResult.ok "ok", createPlayerParty db partyId uuid))
    ∧
    (∀ p : String, (p = storedPass ∨ storedPass = "") →
      readPlayerPartyId db game uuid > 0 →
      handlePartyJoin db game uuid 0 (some pidStr) (some p) =
        (ApiResult.badRequest "player already in a party", db))
    ∧
    (∀ s : String, (ApiResult.unauthorized : ApiResult) ≠ ApiResult.badRequest s) := by
  refine ⟨?_, ?_, ?_, ?_⟩
  · intro p hne hmismatch
    have h1 : (storedPass != "") = true := bne_iff_ne.mpr hne
    have h2 : (p != storedPass) = true := bne_iff_ne.mpr hmismatch
    simp [handlePartyJoin, hpid, hpub, hpass, h1, h2]
  · intro p hempty hnotin
    subst hempty
    simp [handlePartyJoin, hpid, hpub, hpass, handlePartyJoinFinish, hnotin]
  · intro p hp hin
    have hin2 : ¬ (readPlayerPartyId db game uuid ≤ 0) := by omega
    rcases hp with h | h
    · subst h
      simp [handlePartyJoin, hpid, hpub, hpass, handlePartyJoinFinish, hin, hin2]
    · subst h
      simp [handlePartyJoin, hpid, hpub, hpass, handlePartyJoinFinish, hin, hin2]
  · intro s h
    exact ApiResult.noConfusion h

/-- C6 witness: in `dbJoin` (private party 1, stored password "xyz"),
uuidB's join with password "wrong" is answered with the 401 unauthorized
result and no membership is created — obtained by applying
`join_private_password` at this concrete database. -/
theorem join_private_password_witness :
    handlePartyJoin dbJoin "g" "uuidB" 0 (some "1") (some "wrong") =
      (ApiResult.unauthorized, dbJoin) :=
  (join_private_password dbJoin "g" "uuidB" "1" 1 "xyz" (by decide) rfl rfl).1
    "wrong" (by decide) (by decide)

/-! ### C10 — Moderators skip the password gate -/

/-- C10: a join request whose requester has rank 1 or higher skips the
public/password checks entirely: whatever the party's visibility and stored
password — and even with no password supplied — the requester joins
(subject only to the already-in-a-party conflict check). -/
theorem join_moderator_skips_checks (db : Db) (game uuid pidStr : String)
    (partyId : Int) (rank : Int) (hrank : 1 ≤ rank)
    (hpid : atoi pidStr = some partyId)
    (hnotin : readPlayerPartyId db game uuid = 0) :
    ∀ passParam : Option String,
      handlePartyJoin db game uuid rank (some pidStr) passParam =
        (ApiResult.ok "ok", createPlayerParty db partyId uuid) := by
  intro passParam
  have hr0 : (rank == 0) = false := by
    simp only [beq_eq_false_iff_ne, ne_eq]
    omega
  simp [handlePartyJoin, hpid, hr0, handlePartyJoinFinish, hnotin]

/-- C10 witness: in `dbJoin` (private, stored password "xyz") the rank-1
requester uuidC joins with no password parameter at all — obtained by
applying `join_moderator_skips_checks` at this concrete database. -/
theorem join_moderator_skips_checks_witness :
    handlePartyJoin dbJoin "g" "uuidC" 1 (some "1") none =
      (ApiResult.ok "ok", createPlayerParty dbJoin 1 "uuidC") :=
  join_moderator_skips_checks dbJoin "g" "uuidC" "1" 1 1 (by decide) (by decide)
    (by decide) none

/-! ### C7 — Frame validation order -/

/-- C7: inbound-frame validation in Session.processMsgs runs size check
(frames over 4096 bytes), then byte-range check (any byte below 0x20), then
UTF-8 validity; a frame failing a check produces exactly that one error and
nothing is dispatched.  Each conjunct constrains only the checks before it,
so the stated order is forced: an oversized frame reports "bad request size"
whatever its bytes, and a low byte reports "bad byte sequence" whether or
not the frame is valid UTF-8. -/
theorem frame_validation_order (env : Handlers) (delim mdelim : Bytes) :
    (∀ data : Bytes, 4096 < data.length →
      processMsgs env delim mdelim data =
        { errs := [strBytes "bad request size"], sends := [], logged := [],
          dispatched := [] })
    ∧
    (∀ data : Bytes, data.length ≤ 4096 → (∃ b ∈ data, b < 32) →
      processMsgs env delim mdelim data =
        { errs := [strBytes "bad byte sequence"], sends := [], logged := [],
          dispatched := [] })
    ∧
    (∀ data : Bytes, data.length ≤ 4096 → (∀ b ∈ data, 32 ≤ b) →
      utf8Valid data = false →
      processMsgs env delim mdelim data =
        { errs := [strBytes "invalid UTF-8"], sends := [], logged := [],
          dispatched := [] }) := by
  refine ⟨?_, ?_, ?_⟩
  · intro data h
    simp [processMsgs, h]
  · intro data h hex
    have h1 : ¬ (4096 < data.length) := by omega
    have h2 : data.any (fun v => v < 32) = true := by
      rw [List.any_eq_true]
      rcases hex with ⟨b, hb, hlt⟩
      exact ⟨b, hb, by simpa using hlt⟩
    simp [processMsgs, h1, h2]
  · intro data h hge hvalid
    have h1 : ¬ (4096 < data.length) := by omega
    have h2 : data.any (fun v => v < 32) = false := by
      rw [Bool.eq_false_iff]
      intro hcon
      rw [List.any_eq_true] at hcon
      rcases hcon with ⟨b, hb, hlt⟩
      have := hge b hb
      simp only [decide_eq_true_eq] at hlt
      omega
    simp [processMsgs, h1, h2, hvalid]

/-- C7 witness: `frame_validation_order` applied to an oversized frame that
also contains low bytes (size wins), a small frame with a low byte that is
also invalid UTF-8 (byte-range wins), and a well-ranged frame that is
invalid UTF-8. -/
theorem frame_validation_order_witness :
    (processMsgs env0 delim0 mdelim0 (List.replicate 4097 10) =
      { errs := [strBytes "bad request size"], sends := [], logged := [],
        dispatched := [] })
    ∧
    (processMsgs env0 delim0 mdelim0 [10, 200] =
      { errs := [strBytes "bad byte sequence"], sends := [], logged := [],
        dispatched := [] })
    ∧
    (processMsgs env0 delim0 mdelim0 [200] =
      { errs := [strBytes "invalid UTF-8"], sends := [], logged := [],
        dispatched := [] }) :=
  ⟨(frame_validation_order env0 delim0 mdelim0).1 (List.replicate 4097 10)
      (by rw [List.length_replicate]; omega),
   (frame_validation_order env0 delim0 mdelim0).2.1 [10, 200]
      (by simp) ⟨10, by simp, by omega⟩,
   (frame_validation_order env0 delim0 mdelim0).2.2 [200]
      (by simp) (by intro b hb; simp at hb; omega) (by decide)⟩

/-! ### C8 — Independent dispatch of sub-messages -/

/-- The dispatch loop of processMsgs with an arbitrary accumulator: each
sub-message's outcome is appended, independent of the others. -/
theorem processSubMsgs_go (env : Handlers) (d : Bytes) :
    ∀ (msgs : List Bytes) (acc : FrameOut),
      msgs.foldl
        (fun acc m =>
          let r := processMsg env d m
          { errs := acc.errs ++ r.err.toList
            sends := acc.sends ++ r.sendsToSender
            logged := acc.logged ++ r.logged
            dispatched := acc.dispatched ++ [m] }) acc =
      { errs := acc.errs ++ msgs.flatMap (fun m => (processMsg env d m).err.toList)
        sends := acc.sends ++ msgs.flatMap (fun m => (processMsg env d m).sendsToSender)
        logged := acc.logged ++ msgs.flatMap (fun m => (processMsg env d m).logged)
        dispatched := acc.dispatched ++ msgs } := by
  intro msgs
  induction msgs with
  | nil => intro acc; simp
  | cons m ms ih =>
    intro acc
    rw [List.foldl_cons, ih]
    simp [List.append_assoc]

/-- C8: every sub-message of a valid frame is dispatched independently —
the frame outcome decomposes into the concatenation of per-sub-message
outcomes (so a failing sub-message contributes exactly its own error and
the others are still processed); an unknown command yields exactly the one
error carrying that sub-message; a failing pt query additionally sends
"pt"+delim+"null" back to the sender; and the run loop's message case never
changes the registered-client state, so no failure closes the connection. -/
theorem submessage_dispatch_independent (env : Handlers) (delim mdelim : Bytes) :
    (∀ msgs : List Bytes,
      processSubMsgs env delim msgs =
        { errs := msgs.flatMap (fun m => (processMsg env delim m).err.toList)
          sends := msgs.flatMap (fun m => (processMsg env delim m).sendsToSender)
          logged := msgs.flatMap (fun m => (processMsg env delim m).logged)
          dispatched := msgs })
    ∧
    (∀ m cmd rest, splitBytes delim m = cmd :: rest →
      cmd ∉ [strBytes "i", strBytes "name", strBytes "ploc", strBytes "gsay",
        strBytes "psay", strBytes "pt", strBytes "ep", strBytes "el"] →
      processMsg env delim m = { err := some m, sendsToSender := [], logged := [] })
    ∧
    (∀ m rest e, splitBytes delim m = strBytes "pt" :: rest →
      env.handlePt (strBytes "pt" :: rest) = some e →
      processMsg env delim m =
        { err := some e,
          sendsToSender := [strBytes "pt" ++ delim ++ strBytes "null"],
          logged := [] })
    ∧
    (∀ (maxID : Nat) (st : Actor.SessionState) (senderRef : Nat) (data : Bytes),
      (Actor.step maxID env delim mdelim st (.message senderRef data)).clients =
        st.clients ∧
      (Actor.step maxID env delim mdelim st (.message senderRef data)).usedIds =
        st.usedIds ∧
      (Actor.step maxID env delim mdelim st (.message senderRef data)).sessionClients =
        st.sessionClients ∧
      (Actor.step maxID env delim mdelim st (.message senderRef data)).closedRefs =
        st.closedRefs) := by
  refine ⟨?_, ?_, ?_, ?_⟩
  · intro msgs
    have h := processSubMsgs_go env delim msgs
      { errs := [], sends := [], logged := [], dispatched := [] }
    simpa [processSubMsgs] using h
  · intro m cmd rest hsplit hcmd
    simp only [List.mem_cons, not_or, List.not_mem_nil] at hcmd
    obtain ⟨h1, h2, h3, h4, h5, h6, h7, h8, _⟩ := hcmd
    simp [processMsg, hsplit, beq_eq_false_iff_ne.mpr h1, beq_eq_false_iff_ne.mpr h2,
      beq_eq_false_iff_ne.mpr h3, beq_eq_false_iff_ne.mpr h4,
      beq_eq_false_iff_ne.mpr h5, beq_eq_false_iff_ne.mpr h6,
      beq_eq_false_iff_ne.mpr h7, beq_eq_false_iff_ne.mpr h8]
  · intro m rest e hsplit hpt
    have hne1 : (strBytes "pt" == strBytes "i") = false := by decide
    have hne2 : (strBytes "pt" == strBytes "name") = false := by decide
    have hne3 : (strBytes "pt" == strBytes "ploc") = false := by decide
    have hne4 : (strBytes "pt" == strBytes "gsay") = false := by decide
    have hne5 : (strBytes "pt" == strBytes "psay") = false := by decide
    simp [processMsg, hsplit, hne1, hne2, hne3, hne4, hne5, hpt, processMsgResult]
  · intro maxID st senderRef data
    exact ⟨rfl, rfl, rfl, rfl⟩

/-- C8 witness: `submessage_dispatch_independent` applied concretely — a
frame of three sub-messages (a succeeding name command, an unknown command,
a failing pt query) decomposes into exactly one error for each of the two
bad sub-messages plus the pt-null response, with all three dispatched; and
the message step of the run loop on an arbitrary concrete state keeps its
single registered client. -/
theorem submessage_dispatch_independent_witness :
    (processSubMsgs env0 delim0 [strBytes "name", strBytes "zzz", strBytes "pt"] =
      { errs := [strBytes "zzz", strBytes "errNoParty"]
        sends := [strBytes "pt" ++ delim0 ++ strBytes "null"]
        logged := [strBytes "name"]
        dispatched := [strBytes "name", strBytes "zzz", strBytes "pt"] })
    ∧
    (processMsg env0 delim0 (strBytes "zzz") =
      { err := some (strBytes "zzz"), sendsToSender := [], logged := [] })
    ∧
    (processMsg env0 delim0 (strBytes "pt") =
      { err := some (strBytes "errNoParty")
        sendsToSender := [strBytes "pt" ++ delim0 ++ strBytes "null"]
        logged := [] }) :=
  ⟨by
    have h := (submessage_dispatch_independent env0 delim0 mdelim0).1
      [strBytes "name", strBytes "zzz", strBytes "pt"]
    rw [h]
    decide,
   (submessage_dispatch_independent env0 delim0 mdelim0).2.1 (strBytes "zzz")
      (strBytes "zzz") [] (by decide) (by decide),
   (submessage_dispatch_independent env0 delim0 mdelim0).2.2.1 (strBytes "pt")
      [] (strBytes "errNoParty") (by decide) rfl⟩


/-! ### Send-channel lemmas for the broadcast loop -/

theorem lookupQueue_cons_pos (kv : Nat × List Bytes) (q : List (Nat × List Bytes))
    (r : Nat) (h : (kv.1 == r) = true) : Actor.lookupQueue (kv :: q) r = kv.2 := by
  unfold Actor.lookupQueue
  rw [@List.find?_cons_of_pos _ (fun kv2 : Nat × List Bytes => kv2.1 == r) _ _ h]

theorem lookupQueue_cons_neg (kv : Nat × List Bytes) (q : List (Nat × List Bytes))
    (r : Nat) (h : (kv.1 == r) = false) :
    Actor.lookupQueue (kv :: q) r = Actor.lookupQueue q r := by
  unfold Actor.lookupQueue
  rw [@List.find?_cons_of_neg _ (fun kv2 : Nat × List Bytes => kv2.1 == r) _ _
    (fun hc => Bool.false_ne_true (h ▸ hc))]

theorem pushQueue_cons_pos (kv : Nat × List Bytes) (q : List (Nat × List Bytes))
    (r : Nat) (m : Bytes) (h : (kv.1 == r) = true) :
    Actor.pushQueue (kv :: q) r m = (kv.1, kv.2 ++ [m]) :: Actor.pushQueue q r m := by
  show (if kv.1 == r then (kv.1, kv.2 ++ [m]) else kv) :: Actor.pushQueue q r m = _
  rw [if_pos h]

theorem pushQueue_cons_neg (kv : Nat × List Bytes) (q : List (Nat × List Bytes))
    (r : Nat) (m : Bytes) (h : (kv.1 == r) = false) :
    Actor.pushQueue (kv :: q) r m = kv :: Actor.pushQueue q r m := by
  show (if kv.1 == r then (kv.1, kv.2 ++ [m]) else kv) :: Actor.pushQueue q r m = _
  rw [if_neg (fun hc => Bool.false_ne_true (h ▸ hc))]

theorem pushQueue_keys (q : List (Nat × List Bytes)) (r : Nat) (m : Bytes) :
    (Actor.pushQueue q r m).map Prod.fst = q.map Prod.fst := by
  induction q with
  | nil => rfl
  | cons kv t ih =>
    by_cases h : (kv.1 == r) = true
    · rw [pushQueue_cons_pos kv t r m h, List.map_cons, List.map_cons, ih]
    · rw [pushQueue_cons_neg kv t r m (Bool.not_eq_true _ ▸ h), List.map_cons,
        List.map_cons, ih]

theorem lookupQueue_pushQueue_same (q : List (Nat × List Bytes)) (r : Nat) (m : Bytes)
    (hr : r ∈ q.map Prod.fst) :
    Actor.lookupQueue (Actor.pushQueue q r m) r = Actor.lookupQueue q r ++ [m] := by
  induction q with
  | nil => simp at hr
  | cons kv t ih =>
    by_cases h : (kv.1 == r) = true
    · rw [pushQueue_cons_pos kv t r m h,
        lookupQueue_cons_pos (kv.1, kv.2 ++ [m]) (Actor.pushQueue t r m) r h,
        lookupQueue_cons_pos kv t r h]
    · have hfalse : (kv.1 == r) = false := Bool.not_eq_true _ ▸ h
      have hr2 : r ∈ t.map Prod.fst := by
        rcases List.mem_cons.mp (by simpa using hr : r ∈ kv.1 :: t.map Prod.fst)
          with h2 | h2
        · exact absurd (beq_iff_eq.mpr h2.symm) h
        · exact h2
      rw [pushQueue_cons_neg kv t r m hfalse, lookupQueue_cons_neg _ _ _ hfalse,
        lookupQueue_cons_neg _ _ _ hfalse]
      exact ih hr2

theorem lookupQueue_pushQueue_ne (q : List (Nat × List Bytes)) (r r2 : Nat) (m : Bytes)
    (h : r2 ≠ r) :
    Actor.lookupQueue (Actor.pushQueue q r m) r2 = Actor.lookupQueue q r2 := by
  induction q with
  | nil => rfl
  | cons kv t ih =>
    by_cases hk : (kv.1 == r) = true
    · have hk2 : (kv.1 == r2) = false := by
        rw [beq_eq_false_iff_ne]
        intro hcon
        exact h (hcon ▸ beq_iff_eq.mp hk)
      rw [pushQueue_cons_pos kv t r m hk,
        lookupQueue_cons_neg (kv.1, kv.2 ++ [m]) (Actor.pushQueue t r m) r2 hk2,
        lookupQueue_cons_neg kv t r2 hk2]
      exact ih
    · have hkf : (kv.1 == r) = false := Bool.not_eq_true _ ▸ hk
      by_cases hk2 : (kv.1 == r2) = true
      · rw [pushQueue_cons_neg kv t r m hkf, lookupQueue_cons_pos _ _ _ hk2,
          lookupQueue_cons_pos _ _ _ hk2]
      · have hk2f : (kv.1 == r2) = false := Bool.not_eq_true _ ▸ hk2
        rw [pushQueue_cons_neg kv t r m hkf, lookupQueue_cons_neg _ _ _ hk2f,
          lookupQueue_cons_neg _ _ _ hk2f]
        exact ih

theorem bfold_clients_sub (data : Bytes) :
    ∀ (cs : List Actor.SessionClient) (acc : Actor.SessionState)
      (x : Actor.SessionClient),
      x ∈ (cs.foldl (Actor.broadcastStep data) acc).clients → x ∈ acc.clients := by
  intro cs
  induction cs with
  | nil => intro acc x h; exact h
  | cons c cs ih =>
    intro acc x h
    have h2 := ih (Actor.broadcastStep data acc c) x h
    unfold Actor.broadcastStep at h2
    by_cases hq : (Actor.lookupQueue acc.queues c.ref).length < 256
    · rw [if_pos hq] at h2; exact h2
    · rw [if_neg hq] at h2
      exact List.mem_of_mem_filter h2

theorem bfold_usedIds_sub (data : Bytes) :
    ∀ (cs : List Actor.SessionClient) (acc : Actor.SessionState) (i : Nat),
      i ∈ (cs.foldl (Actor.broadcastStep data) acc).usedIds → i ∈ acc.usedIds := by
  intro cs
  induction cs with
  | nil => intro acc i h; exact h
  | cons c cs ih =>
    intro acc i h
    have h2 := ih (Actor.broadcastStep data acc c) i h
    unfold Actor.broadcastStep at h2
    by_cases hq : (Actor.lookupQueue acc.queues c.ref).length < 256
    · rw [if_pos hq] at h2; exact h2
    · rw [if_neg hq] at h2
      exact List.mem_of_mem_erase h2

theorem bfold_closed_sup (data : Bytes) :
    ∀ (cs : List Actor.SessionClient) (acc : Actor.SessionState) (r : Nat),
      r ∈ acc.closedRefs → r ∈ (cs.foldl (Actor.broadcastStep data) acc).closedRefs := by
  intro cs
  induction cs with
  | nil => intro acc r h; exact h
  | cons c cs ih =>
    intro acc r h
    apply ih
    unfold Actor.broadcastStep
    by_cases hq : (Actor.lookupQueue acc.queues c.ref).length < 256
    · rw [if_pos hq]; exact h
    · rw [if_neg hq]; exact List.mem_append_left _ h

theorem bfold_flushed_sup (data : Bytes) :
    ∀ (cs : List Actor.SessionClient) (acc : Actor.SessionState) (u : String),
      u ∈ acc.flushed → u ∈ (cs.foldl (Actor.broadcastStep data) acc).flushed := by
  intro cs
  induction cs with
  | nil => intro acc u h; exact h
  | cons c cs ih =>
    intro acc u h
    apply ih
    unfold Actor.broadcastStep
    by_cases hq : (Actor.lookupQueue acc.queues c.ref).length < 256
    · rw [if_pos hq]; exact h
    · rw [if_neg hq]; exact List.mem_append_left _ h

theorem bfold_keep (data : Bytes) :
    ∀ (cs : List Actor.SessionClient) (acc : Actor.SessionState)
      (x : Actor.SessionClient), x.ref ∉ cs.map (fun c => c.ref) →
      ((x ∈ acc.clients → x ∈ (cs.foldl (Actor.broadcastStep data) acc).clients) ∧
       Actor.lookupQueue (cs.foldl (Actor.broadcastStep data) acc).queues x.ref =
         Actor.lookupQueue acc.queues x.ref) := by
  intro cs
  induction cs with
  | nil => intro acc x hx; exact ⟨fun h => h, rfl⟩
  | cons c cs ih =>
    intro acc x hx
    have hne : x.ref ≠ c.ref := by
      intro hcon
      apply hx
      rw [hcon]
      simp
    have hx2 : x.ref ∉ cs.map (fun c => c.ref) := by
      intro hcon
      apply hx
      simp [hcon]
    obtain ⟨ihm, ihq⟩ := ih (Actor.broadcastStep data acc c) x hx2
    constructor
    · intro hmem
      apply ihm
      unfold Actor.broadcastStep
      by_cases hq : (Actor.lookupQueue acc.queues c.ref).length < 256
      · rw [if_pos hq]; exact hmem
      · rw [if_neg hq]
        exact List.mem_filter.mpr ⟨hmem, by simp [hne]⟩
    · rw [List.foldl_cons, ihq]
      unfold Actor.broadcastStep
      by_cases hq : (Actor.lookupQueue acc.queues c.ref).length < 256
      · rw [if_pos hq]
        exact lookupQueue_pushQueue_ne acc.queues c.ref x.ref data hne
      · rw [if_neg hq]; rfl

theorem broadcast_go (data : Bytes) :
    ∀ (cs : List Actor.SessionClient) (acc : Actor.SessionState),
      (cs.map (fun c => c.ref)).Nodup →
      (∀ c ∈ cs, c ∈ acc.clients) →
      acc.usedIds.Nodup →
      (∀ c ∈ cs, c.ref ∈ acc.queues.map Prod.fst) →
      ∀ c ∈ cs,
        (((Actor.lookupQueue acc.queues c.ref).length < 256) →
          c ∈ (cs.foldl (Actor.broadcastStep data) acc).clients ∧
          Actor.lookupQueue (cs.foldl (Actor.broadcastStep data) acc).queues c.ref =
            Actor.lookupQueue acc.queues c.ref ++ [data])
        ∧
        (¬ ((Actor.lookupQueue acc.queues c.ref).length < 256) →
          c ∉ (cs.foldl (Actor.broadcastStep data) acc).clients ∧
          c.id ∉ (cs.foldl (Actor.broadcastStep data) acc).usedIds ∧
          c.ref ∈ (cs.foldl (Actor.broadcastStep data) acc).closedRefs ∧
          c.uuid ∈ (cs.foldl (Actor.broadcastStep data) acc).flushed) := by
  intro cs
  induction cs with
  | nil =>
    intro acc _ _ _ _ c hc
    exact absurd hc (List.not_mem_nil c)
  | cons c0 cs ih =>
    intro acc hnd hmem hua hq c hc
    have hnd2 : (cs.map (fun c => c.ref)).Nodup := by
      rw [List.map_cons] at hnd
      exact hnd.of_cons
    have hc0notin : c0.ref ∉ cs.map (fun c => c.ref) := by
      rw [List.map_cons] at hnd
      exact (List.nodup_cons.mp hnd).1
    simp only [List.foldl_cons]
    rcases List.mem_cons.mp hc with rfl | hcs
    · constructor
      · intro hlt
        have hstep : Actor.broadcastStep data acc c =
            { acc with queues := Actor.pushQueue acc.queues c.ref data } := by
          unfold Actor.broadcastStep
          rw [if_pos hlt]
        have hkeep := bfold_keep data cs (Actor.broadcastStep data acc c) c hc0notin
        constructor
        · apply hkeep.1
          rw [hstep]
          exact hmem c (List.mem_cons_self _ _)
        · rw [hkeep.2, hstep]
          exact lookupQueue_pushQueue_same acc.queues c.ref data
            (hq c (List.mem_cons_self _ _))
      · intro hge
        have hstep : Actor.broadcastStep data acc c = Actor.deleteClient acc c := by
          unfold Actor.broadcastStep
          rw [if_neg hge]
        refine ⟨?_, ?_, ?_, ?_⟩
        · intro hcon
          have h2 := bfold_clients_sub data cs (Actor.broadcastStep data acc c) c hcon
          rw [hstep] at h2
          have h3 := (List.mem_filter.mp h2).2
          simp at h3
        · intro hcon
          have h2 := bfold_usedIds_sub data cs (Actor.broadcastStep data acc c) c.id hcon
          rw [hstep] at h2
          have h3 : c.id ∈ acc.usedIds.erase c.id := h2
          rw [hua.mem_erase_iff] at h3
          exact h3.1 rfl
        · apply bfold_closed_sup
          rw [hstep]
          simp [Actor.deleteClient]
        · apply bfold_flushed_sup
          rw [hstep]
          simp [Actor.deleteClient]
    · have hcne : c.ref ≠ c0.ref := by
        intro hcon
        apply hc0notin
        rw [← hcon]
        exact List.mem_map_of_mem _ hcs
      have hqeq : Actor.lookupQueue (Actor.broadcastStep data acc c0).queues c.ref =
          Actor.lookupQueue acc.queues c.ref := by
        unfold Actor.broadcastStep
        by_cases hq0 : (Actor.lookupQueue acc.queues c0.ref).length < 256
        · rw [if_pos hq0]
          exact lookupQueue_pushQueue_ne acc.queues c0.ref c.ref data hcne
        · rw [if_neg hq0]
          rfl
      have hmem2 : ∀ d ∈ cs, d ∈ (Actor.broadcastStep data acc c0).clients := by
        intro d hd
        have hdne : d.ref ≠ c0.ref := by
          intro hcon
          apply hc0notin
          rw [← hcon]
          exact List.mem_map_of_mem _ hd
        unfold Actor.broadcastStep
        by_cases hq0 : (Actor.lookupQueue acc.queues c0.ref).length < 256
        · rw [if_pos hq0]
          exact hmem d (List.mem_cons_of_mem _ hd)
        · rw [if_neg hq0]
          exact List.mem_filter.mpr ⟨hmem d (List.mem_cons_of_mem _ hd), by simp [hdne]⟩
      have hua2 : (Actor.broadcastStep data acc c0).usedIds.Nodup := by
        unfold Actor.broadcastStep
        by_cases hq0 : (Actor.lookupQueue acc.queues c0.ref).length < 256
        · rw [if_pos hq0]
          exact hua
        · rw [if_neg hq0]
          exact hua.erase _
      have hq2 : ∀ d ∈ cs, d.ref ∈ (Actor.broadcastStep data acc c0).queues.map Prod.fst := by
        intro d hd
        unfold Actor.broadcastStep
        by_cases hq0 : (Actor.lookupQueue acc.queues c0.ref).length < 256
        · rw [if_pos hq0]
          show d.ref ∈ (Actor.pushQueue acc.queues c0.ref data).map Prod.fst
          rw [pushQueue_keys]
          exact hq d (List.mem_cons_of_mem _ hd)
        · rw [if_neg hq0]
          exact hq d (List.mem_cons_of_mem _ hd)
      have hih := ih (Actor.broadcastStep data acc c0) hnd2 hmem2 hua2 hq2 c hcs
      rw [hqeq] at hih
      exact hih

/-! ### C3 — Broadcast: enqueue or evict, never block -/

/-- C3: a Broadcast over the registered clients enqueues the payload on
every recipient whose 256-slot outbound queue has room, and every recipient
whose queue is full runs the deleteClient path instead: it leaves the client
set, its numeric id is freed, its channel is closed and its game data is
flushed — while every other recipient still receives the payload.  The
non-blocking select of the source is the enqueue-or-evict dichotomy itself:
no branch of the loop waits on a queue. -/
theorem broadcast_delivers_or_evicts (st : Actor.SessionState) (data : Bytes)
    (hrefs : (st.clients.map (fun c => c.ref)).Nodup)
    (hids : st.usedIds.Nodup)
    (hqs : ∀ c ∈ st.clients, c.ref ∈ st.queues.map Prod.fst) :
    ∀ c ∈ st.clients,
      (((Actor.lookupQueue st.queues c.ref).length < 256) →
        c ∈ (Actor.broadcast st data).clients ∧
        Actor.lookupQueue (Actor.broadcast st data).queues c.ref =
          Actor.lookupQueue st.queues c.ref ++ [data])
      ∧
      (¬ ((Actor.lookupQueue st.queues c.ref).length < 256) →
        c ∉ (Actor.broadcast st data).clients ∧
        c.id ∉ (Actor.broadcast st data).usedIds ∧
        c.ref ∈ (Actor.broadcast st data).closedRefs ∧
        c.uuid ∈ (Actor.broadcast st data).flushed) :=
  broadcast_go data st.clients st hrefs (fun c hc => hc) hids hqs

/-! ### C1 — One live record per identity -/

theorem keyInsert_nodup (l : List (String × Server.SessionClient)) (u : String)
    (h : (l.map Prod.fst).Nodup) :
    ∀ c : Server.SessionClient,
      (((u, c) :: l.filter (fun kv => !(kv.1 == u))).map Prod.fst).Nodup := by
  intro c
  rw [List.map_cons, List.nodup_cons]
  constructor
  · intro hcon
    rcases List.mem_map.mp hcon with ⟨kv, hkv, hfst⟩
    have h2 := (List.mem_filter.mp hkv).2
    rw [hfst] at h2
    simp at h2
  · exact h.sublist (List.Sublist.map Prod.fst (List.filter_sublist _))

/-- C1 (amended): in the concurrent-map variant (src/server/session.go), a
join for an identity that already has a live record runs that record's
disconnect before the new record is stored, and the uuid-keyed map keeps at
most one record per identity.  (In the channel-actor variant no such
eviction exists — see the counterexample `actor_duplicate_identity_cex`.) -/
theorem server_evicts_prior_identity (sst : Server.ServerState)
    (conn : Server.JoinInfo)
    (hban : conn.banned = false)
    (hkeys : (sst.clients.map Prod.fst).Nodup)
    (hrefs : ∀ kv ∈ sst.clients, kv.2.ref < sst.nextRef) :
    ((Server.joinSessionWs sst conn).clients.map Prod.fst).Nodup
    ∧
    (∀ old, sst.clients.find? (fun kv => kv.1 == conn.uuid) = some old →
      old.2.ref ∈ (Server.joinSessionWs sst conn).disconnected ∧
      old.2 ∉ (Server.joinSessionWs sst conn).clients.map Prod.snd) := by
  constructor
  · cases hfind : sst.clients.find? (fun kv => kv.1 == conn.uuid) with
    | none =>
      simp only [Server.joinSessionWs, hban, Bool.false_eq_true, if_false, hfind]
      by_cases hip : (sst.clients.filter (fun kv => kv.2.ip == conn.ip)).length > 3
      · rw [if_pos hip]
        exact hkeys
      · rw [if_neg hip]
        exact keyInsert_nodup sst.clients conn.uuid hkeys _
    | some old =>
      simp only [Server.joinSessionWs, hban, Bool.false_eq_true, if_false, hfind]
      have hkeys1 : ((Server.disconnect sst old.2).clients.map Prod.fst).Nodup :=
        hkeys.sublist (List.Sublist.map Prod.fst (List.filter_sublist _))
      by_cases hip : ((Server.disconnect sst old.2).clients.filter
          (fun kv => kv.2.ip == conn.ip)).length > 3
      · rw [if_pos hip]
        exact hkeys1
      · rw [if_neg hip]
        exact keyInsert_nodup _ conn.uuid hkeys1 _
  · intro old hfind
    have hmemold : old ∈ sst.clients := List.mem_of_find?_eq_some hfind
    have hnotval : ∀ kv ∈ (Server.disconnect sst old.2).clients, kv.2 ≠ old.2 := by
      intro kv hkv hval
      have h2 := (List.mem_filter.mp hkv).2
      rw [hval] at h2
      simp at h2
    simp only [Server.joinSessionWs, hban, Bool.false_eq_true, if_false, hfind]
    by_cases hip : ((Server.disconnect sst old.2).clients.filter
        (fun kv => kv.2.ip == conn.ip)).length > 3
    · rw [if_pos hip]
      constructor
      · show old.2.ref ∈ (Server.disconnect sst old.2).disconnected
        simp [Server.disconnect]
      · intro hcon
        rcases List.mem_map.mp hcon with ⟨kv, hkv, hval⟩
        exact hnotval kv hkv hval
    · rw [if_neg hip]
      constructor
      · show old.2.ref ∈ (Server.disconnect sst old.2).disconnected
        simp [Server.disconnect]
      · intro hcon
        rcases List.mem_map.mp hcon with ⟨kv, hkv, hval⟩
        rcases List.mem_cons.mp hkv with rfl | hkv2
        · have hlt := hrefs old hmemold
          have h2 : old.2.ref = (Server.disconnect sst old.2).nextRef :=
            congrArg (fun c => c.ref) hval.symm
          have h3 : (Server.disconnect sst old.2).nextRef = sst.nextRef := rfl
          rw [h3] at h2
          omega
        · exact hnotval kv (List.mem_of_mem_filter hkv2) hval

/-! ### C2 — Session id allocation -/

theorem scanFreeId_spec (used : List Nat) :
    ∀ (count i : Nat), 1 ≤ i →
      (Actor.scanFreeId used count i = 0 →
        ∀ j, i ≤ j → j < i + count → j ∈ used)
      ∧
      (Actor.scanFreeId used count i ≠ 0 →
        i ≤ Actor.scanFreeId used count i ∧
        Actor.scanFreeId used count i < i + count ∧
        Actor.scanFreeId used count i ∉ used ∧
        ∀ j, i ≤ j → j < Actor.scanFreeId used count i → j ∈ used) := by
  intro count
  induction count with
  | zero =>
    intro i hi
    constructor
    · intro _ j hj1 hj2
      omega
    · intro hne
      exact absurd rfl hne
  | succ count ih =>
    intro i hi
    by_cases hc : used.contains i = true
    · have hmem : i ∈ used := by simpa using hc
      have heq : Actor.scanFreeId used (count + 1) i =
          Actor.scanFreeId used count (i + 1) := by
        show (if used.contains i then Actor.scanFreeId used count (i + 1) else i) = _
        rw [if_pos hc]
      have ih2 := ih (i + 1) (by omega)
      rw [heq]
      constructor
      · intro h0 j hj1 hj2
        by_cases hji : j = i
        · subst hji; exact hmem
        · exact ih2.1 h0 j (by omega) (by omega)
      · intro hne
        obtain ⟨h1, h2, h3, h4⟩ := ih2.2 hne
        refine ⟨by omega, by omega, h3, ?_⟩
        intro j hj1 hj2
        by_cases hji : j = i
        · subst hji; exact hmem
        · exact h4 j (by omega) hj2
    · have hnomem : i ∉ used := by simpa using hc
      have heq : Actor.scanFreeId used (count + 1) i = i := by
        show (if used.contains i then Actor.scanFreeId used count (i + 1) else i) = _
        rw [if_neg hc]
      rw [heq]
      constructor
      · intro h0
        omega
      · intro _
        exact ⟨Nat.le_refl _, by omega, hnomem, fun j hj1 hj2 => by omega⟩

/-- C2 (amended): in the channel-actor session (src/session.go), the id
assigned on connect is the smallest id of 1..maxID not currently in use,
exhaustion of the id space rejects the connection as room-full with no
record installed, and distinctness of the registered clients' ids is
preserved.  In the server-package variant (src/server/session.go), ids come
from the monotonically increasing counter lastId starting at 0: they stay
distinct (each stored id is below the counter), but they are not the
smallest unused id, are not confined to 1..N, and no server-full rejection
exists — see `server_id_not_smallest_cex`. -/
theorem session_id_allocation (maxID : Nat) (delim : Bytes)
    (st : Actor.SessionState) (conn : Actor.ConnInfo)
    (hsb : conn.shadowBanned = false) (hbn : conn.banned = false)
    (hip : (st.clients.filter (fun c => c.ip == conn.ip)).length < 3) :
    (Actor.smallestFreeId maxID st.usedIds = 0 →
      Actor.connect maxID delim st conn =
        { st with errLog := st.errLog ++ [strBytes "room is full"] } ∧
      ∀ j, 1 ≤ j → j ≤ maxID → j ∈ st.usedIds)
    ∧
    (Actor.smallestFreeId maxID st.usedIds ≠ 0 →
      (∃ client : Actor.SessionClient,
        (Actor.connect maxID delim st conn).clients = client :: st.clients ∧
        client.id = Actor.smallestFreeId maxID st.usedIds ∧
        client.uuid = conn.uuid ∧
        (Actor.connect maxID delim st conn).usedIds =
          Actor.smallestFreeId maxID st.usedIds :: st.usedIds) ∧
      1 ≤ Actor.smallestFreeId maxID st.usedIds ∧
      Actor.smallestFreeId maxID st.usedIds ≤ maxID ∧
      Actor.smallestFreeId maxID st.usedIds ∉ st.usedIds ∧
      (∀ j, 1 ≤ j → j < Actor.smallestFreeId maxID st.usedIds → j ∈ st.usedIds))
    ∧
    (((st.clients.map (fun c => c.id)).Nodup ∧
        ∀ c ∈ st.clients, c.id ∈ st.usedIds) →
      ((Actor.connect maxID delim st conn).clients.map (fun c => c.id)).Nodup ∧
      ∀ c ∈ (Actor.connect maxID delim st conn).clients,
        c.id ∈ (Actor.connect maxID delim st conn).usedIds)
    ∧
    (∀ (sst : Server.ServerState) (conn2 : Server.JoinInfo),
      conn2.banned = false →
      ((∀ kv ∈ sst.clients, kv.2.id < sst.lastId) →
        ∀ kv ∈ (Server.joinSessionWs sst conn2).clients,
          kv.2.id < (Server.joinSessionWs sst conn2).lastId)
      ∧
      ((∀ kv ∈ sst.clients, kv.2.id < sst.lastId) →
        (sst.clients.map (fun kv => kv.2.id)).Nodup →
        ((Server.joinSessionWs sst conn2).clients.map (fun kv => kv.2.id)).Nodup)) := by
  have hspec := scanFreeId_spec st.usedIds maxID 1 (Nat.le_refl 1)
  rw [show Actor.scanFreeId st.usedIds maxID 1 =
    Actor.smallestFreeId maxID st.usedIds from rfl] at hspec
  have hip2 : ¬ ((st.clients.filter (fun c => c.ip == conn.ip)).length ≥ 3) := by omega
  have hconn : Actor.connect maxID delim st conn =
      Actor.connectAfterBanCheck maxID delim st conn := by
    simp [Actor.connect, hsb, hbn]
  refine ⟨?_, ?_, ?_, ?_⟩
  · intro h0
    constructor
    · rw [hconn]
      simp only [Actor.connectAfterBanCheck]
      rw [if_neg hip2]
      have hb : (Actor.smallestFreeId maxID st.usedIds == 0) = true := by
        simp [h0]
      rw [hb]
      simp
    · intro j hj1 hj2
      exact hspec.1 h0 j hj1 (by omega)
  · intro hne
    obtain ⟨h1, h2, h3, h4⟩ := hspec.2 hne
    have hb : (Actor.smallestFreeId maxID st.usedIds == 0) = false := by
      simpa using hne
    constructor
    · let client : Actor.SessionClient :=
        { ref := st.nextRef, ip := conn.ip,
          id := Actor.smallestFreeId maxID st.usedIds, online := conn.online,
          account := conn.account, name := conn.name, uuid := conn.uuid,
          rank := conn.rank, badge := conn.badge, systemName := conn.systemName,
          spriteName := conn.spriteName, spriteIndex := conn.spriteIndex }
      refine ⟨client, ?_, rfl, rfl, ?_⟩
      · rw [hconn]
        simp only [Actor.connectAfterBanCheck]
        rw [if_neg hip2, hb]
        rfl
      · rw [hconn]
        simp only [Actor.connectAfterBanCheck]
        rw [if_neg hip2, hb]
        rfl
    · exact ⟨h1, by omega, h3, fun j hj1 hj2 => h4 j hj1 hj2⟩
  · intro ⟨hnd, hsub⟩
    by_cases h0 : Actor.smallestFreeId maxID st.usedIds = 0
    · have heq : Actor.connect maxID delim st conn =
          { st with errLog := st.errLog ++ [strBytes "room is full"] } := by
        rw [hconn]
        simp only [Actor.connectAfterBanCheck]
        rw [if_neg hip2]
        have hb : (Actor.smallestFreeId maxID st.usedIds == 0) = true := by simp [h0]
        rw [hb]
        simp
      rw [heq]
      exact ⟨hnd, hsub⟩
    · have hb : (Actor.smallestFreeId maxID st.usedIds == 0) = false := by simpa using h0
      obtain ⟨h1, h2, h3, h4⟩ := hspec.2 h0
      have heq2 : (Actor.connect maxID delim st conn).clients =
          { ref := st.nextRef, ip := conn.ip,
            id := Actor.smallestFreeId maxID st.usedIds, online := conn.online,
            account := conn.account, name := conn.name, uuid := conn.uuid,
            rank := conn.rank, badge := conn.badge, systemName := conn.systemName,
            spriteName := conn.spriteName,
            spriteIndex := conn.spriteIndex } :: st.clients := by
        rw [hconn]
        simp only [Actor.connectAfterBanCheck]
        rw [if_neg hip2, hb]
        rfl
      have heq3 : (Actor.connect maxID delim st conn).usedIds =
          Actor.smallestFreeId maxID st.usedIds :: st.usedIds := by
        rw [hconn]
        simp only [Actor.connectAfterBanCheck]
        rw [if_neg hip2, hb]
        rfl
      rw [heq2, heq3]
      constructor
      · rw [List.map_cons, List.nodup_cons]
        refine ⟨?_, hnd⟩
        intro hcon
        rcases List.mem_map.mp hcon with ⟨c, hcmem, hcid⟩
        have hcid2 : c.id = Actor.smallestFreeId maxID st.usedIds := hcid
        exact h3 (hcid2 ▸ hsub c hcmem)
      · intro c hc
        rcases List.mem_cons.mp hc with rfl | hc2
        · exact List.mem_cons_self _ _
        · exact List.mem_cons_of_mem _ (hsub c hc2)
  · intro sst conn2 hbn2
    constructor
    · intro hbound kv hkv
      revert hkv
      cases hfind : sst.clients.find? (fun kv => kv.1 == conn2.uuid) with
      | none =>
        simp only [Server.joinSessionWs, hbn2, Bool.false_eq_true, if_false, hfind]
        by_cases hip3 : (sst.clients.filter (fun kv => kv.2.ip == conn2.ip)).length > 3
        · rw [if_pos hip3]
          intro hkv
          exact hbound kv hkv
        · rw [if_neg hip3]
          intro hkv
          rcases List.mem_cons.mp hkv with rfl | hkv2
          · show sst.lastId < sst.lastId + 1
            omega
          · have := hbound kv (List.mem_of_mem_filter hkv2)
            show kv.2.id < sst.lastId + 1
            omega
      | some old =>
        have hb1 : ∀ kv ∈ (Server.disconnect sst old.2).clients, kv.2.id < sst.lastId :=
          fun kv hkv => hbound kv (List.mem_of_mem_filter hkv)
        simp only [Server.joinSessionWs, hbn2, Bool.false_eq_true, if_false, hfind]
        by_cases hip3 : ((Server.disconnect sst old.2).clients.filter
            (fun kv => kv.2.ip == conn2.ip)).length > 3
        · rw [if_pos hip3]
          intro hkv
          exact hb1 kv hkv
        · rw [if_neg hip3]
          intro hkv
          rcases List.mem_cons.mp hkv with rfl | hkv2
          · show sst.lastId < sst.lastId + 1
            omega
          · have := hb1 kv (List.mem_of_mem_filter hkv2)
            show kv.2.id < sst.lastId + 1
            omega
    · intro hbound hnd
      cases hfind : sst.clients.find? (fun kv => kv.1 == conn2.uuid) with
      | none =>
        simp only [Server.joinSessionWs, hbn2, Bool.false_eq_true, if_false, hfind]
        by_cases hip3 : (sst.clients.filter (fun kv => kv.2.ip == conn2.ip)).length > 3
        · rw [if_pos hip3]
          exact hnd
        · rw [if_neg hip3]
          rw [List.map_cons, List.nodup_cons]
          constructor
          · intro hcon
            rcases List.mem_map.mp hcon with ⟨kv, hkv, hkvid⟩
            have hkvid2 : kv.2.id = sst.lastId := hkvid
            have := hbound kv (List.mem_of_mem_filter hkv)
            omega
          · exact hnd.sublist (List.Sublist.map _ (List.filter_sublist _))
      | some old =>
        have hnd1 : ((Server.disconnect sst old.2).clients.map
            (fun kv => kv.2.id)).Nodup :=
          hnd.sublist (List.Sublist.map _ (List.filter_sublist _))
        have hb1 : ∀ kv ∈ (Server.disconnect sst old.2).clients, kv.2.id < sst.lastId :=
          fun kv hkv => hbound kv (List.mem_of_mem_filter hkv)
        simp only [Server.joinSessionWs, hbn2, Bool.false_eq_true, if_false, hfind]
        by_cases hip3 : ((Server.disconnect sst old.2).clients.filter
            (fun kv => kv.2.ip == conn2.ip)).length > 3
        · rw [if_pos hip3]
          exact hnd1
        · rw [if_neg hip3]
          rw [List.map_cons, List.nodup_cons]
          constructor
          · intro hcon
            rcases List.mem_map.mp hcon with ⟨kv, hkv, hkvid⟩
            have hkvid2 : kv.2.id = sst.lastId := hkvid
            have := hb1 kv (List.mem_of_mem_filter hkv)
            omega
          · exact hnd1.sublist (List.Sublist.map _ (List.filter_sublist _))

/-! ### C9 — Same-address connection limit -/

/-- C9 (amended): the channel-actor variant rejects a connect when 3 or
more registered clients already share the source address (the 4th attempt
is rejected with no record, the first 3 are admitted), while the
server-package variant rejects only when more than 3 share the address: the
4th is admitted and only the 5th is rejected — see
`server_fourth_connection_admitted_cex`. -/
theorem same_ip_connection_limit (maxID : Nat) (delim : Bytes)
    (st : Actor.SessionState) (conn : Actor.ConnInfo)
    (hsb : conn.shadowBanned = false) (hbn : conn.banned = false) :
    ((st.clients.filter (fun c => c.ip == conn.ip)).length ≥ 3 →
      Actor.connect maxID delim st conn =
        { st with errLog := st.errLog ++ [strBytes "too many connections"] })
    ∧
    ((st.clients.filter (fun c => c.ip == conn.ip)).length < 3 →
      Actor.smallestFreeId maxID st.usedIds ≠ 0 →
      ∃ client : Actor.SessionClient,
        (Actor.connect maxID delim st conn).clients = client :: st.clients ∧
        client.ip = conn.ip)
    ∧
    (∀ (sst : Server.ServerState) (conn2 : Server.JoinInfo),
      conn2.banned = false →
      sst.clients.find? (fun kv => kv.1 == conn2.uuid) = none →
      ((sst.clients.filter (fun kv => kv.2.ip == conn2.ip)).length > 3 →
        (Server.joinSessionWs sst conn2).clients = sst.clients)
      ∧
      ((sst.clients.filter (fun kv => kv.2.ip == conn2.ip)).length = 3 →
        ∃ client : Server.SessionClient,
          (Server.joinSessionWs sst conn2).clients =
            (conn2.uuid, client) ::
              sst.clients.filter (fun kv => !(kv.1 == conn2.uuid)))) := by
  have hconn : Actor.connect maxID delim st conn =
      Actor.connectAfterBanCheck maxID delim st conn := by
    simp [Actor.connect, hsb, hbn]
  refine ⟨?_, ?_, ?_⟩
  · intro hip
    rw [hconn]
    simp only [Actor.connectAfterBanCheck]
    rw [if_pos hip]
  · intro hip hfree
    have hip2 : ¬ ((st.clients.filter (fun c => c.ip == conn.ip)).length ≥ 3) := by
      omega
    have hb : (Actor.smallestFreeId maxID st.usedIds == 0) = false := by
      simpa using hfree
    let client : Actor.SessionClient :=
      { ref := st.nextRef, ip := conn.ip,
        id := Actor.smallestFreeId maxID st.usedIds, online := conn.online,
        account := conn.account, name := conn.name, uuid := conn.uuid,
        rank := conn.rank, badge := conn.badge, systemName := conn.systemName,
        spriteName := conn.spriteName, spriteIndex := conn.spriteIndex }
    refine ⟨client, ?_, rfl⟩
    rw [hconn]
    simp only [Actor.connectAfterBanCheck]
    rw [if_neg hip2, hb]
    rfl
  · intro sst conn2 hbn2 hfind
    constructor
    · intro hip
      simp only [Server.joinSessionWs, hbn2, Bool.false_eq_true, if_false, hfind]
      rw [if_pos hip]
    · intro hip
      have hip2 : ¬ ((sst.clients.filter (fun kv => kv.2.ip == conn2.ip)).length > 3) := by
        omega
      let client : Server.SessionClient :=
        { ref := sst.nextRef, ip := conn2.ip, id := sst.lastId, uuid := conn2.uuid,
          name := conn2.name, rank := conn2.rank,
          badge := if conn2.badge == "" then "null" else conn2.badge,
          muted := conn2.muted, account := conn2.account }
      refine ⟨client, ?_⟩
      simp only [Server.joinSessionWs, hbn2, Bool.false_eq_true, if_false, hfind]
      rw [if_neg hip2]

/-- C1 counterexample: in the channel-actor variant, two connects resolving
to the same identity leave two live client records for that identity in the
registered set, and no connection was closed — the prior record is not
evicted, refuting "at most one live Client Record exists per player
identity" for this variant. -/
theorem actor_duplicate_identity_cex :
    ((Actor.run 10 env0 delim0 mdelim0
        [Actor.Intent.connect connDup1, Actor.Intent.connect connDup2]).clients.filter
      (fun c => c.uuid == "uuidDup")).length = 2
    ∧ (Actor.run 10 env0 delim0 mdelim0
        [Actor.Intent.connect connDup1, Actor.Intent.connect connDup2]).closedRefs = [] := by
  decide

/-- C1 witness: `server_evicts_prior_identity` applied to a state holding a
record for uuidDup — a second join for uuidDup disconnects the old record
and removes it from the map. -/
theorem server_evicts_prior_identity_witness :
    c1old.ref ∈ (Server.joinSessionWs sstC1 (joinOf "uuidDup" "ip2")).disconnected ∧
    c1old ∉ (Server.joinSessionWs sstC1 (joinOf "uuidDup" "ip2")).clients.map Prod.snd :=
  (server_evicts_prior_identity sstC1 (joinOf "uuidDup" "ip2") rfl (by decide)
    (by decide)).2 ("uuidDup", c1old) (by decide)

/-- C2 counterexample: in the server-package variant, after clients a, b, c
connect (ids 0, 1, 2) and b disconnects, the next client d is assigned id 3
even though id 1 is no longer in use by any registered client (and the
smallest unused id of 1..100 is 1) — the id is not the smallest unused id
in 1..N, and no server-full rejection is possible. -/
theorem server_id_not_smallest_cex :
    ((Server.joinSessionWs c2pre (joinOf "d" "ip4")).clients.find?
        (fun kv => kv.1 == "d")).map (fun kv => kv.2.id) = some 3
    ∧ Actor.smallestFreeId 100 (c2pre.clients.map (fun kv => kv.2.id)) = 1 := by
  decide

/-- C9 counterexample: in the server-package variant, four connects from
the same address are all admitted (no rejection is logged), refuting "the
4th simultaneous connection attempt from that address is rejected". -/
theorem server_fourth_connection_admitted_cex :
    c9run.clients.length = 4
    ∧ (c9run.clients.filter (fun kv => kv.2.ip == "ipX")).length = 4
    ∧ c9run.errLog = [] := by
  decide

/-- C2 witness: `session_id_allocation` applied to an actor state holding
ids 1 and 2 — the connect allocates id 3, the smallest unused id. -/
theorem session_id_allocation_witness :
    (Actor.connect 5 delim0 stW (connOf "w" "ipW")).usedIds = [3, 1, 2] := by
  obtain ⟨⟨client, hcl, hid, huuid, hused⟩, h1, h2, h3, h4⟩ :=
    (session_id_allocation 5 delim0 stW (connOf "w" "ipW") rfl rfl (by decide)).2.1
      (by decide)
  rw [hused]
  decide

set_option maxRecDepth 4096 in
/-- C3 witness: `broadcast_delivers_or_evicts` applied to `stB` — the
client with the full channel is evicted (gone from the set, id freed,
channel closed, data flushed) while the other receives the payload. -/
theorem broadcast_delivers_or_evicts_witness :
    (cOk ∈ (Actor.broadcast stB [66]).clients ∧
      Actor.lookupQueue (Actor.broadcast stB [66]).queues cOk.ref =
        Actor.lookupQueue stB.queues cOk.ref ++ [[66]])
    ∧ (cFull ∉ (Actor.broadcast stB [66]).clients ∧
       cFull.id ∉ (Actor.broadcast stB [66]).usedIds ∧
       cFull.ref ∈ (Actor.broadcast stB [66]).closedRefs ∧
       cFull.uuid ∈ (Actor.broadcast stB [66]).flushed) := by
  have h := broadcast_delivers_or_evicts stB [66] (by decide) (by decide) (by decide)
  exact ⟨(h cOk (by decide)).1 (by decide), (h cFull (by decide)).2 (by decide)⟩

/-- C9 witness: `same_ip_connection_limit` applied concretely — the actor
rejects the 4th same-address connect against `st9`, while the server
variant admits a 4th same-address client against `sst9`. -/
theorem same_ip_connection_limit_witness :
    (Actor.connect 10 delim0 st9 (connOf "u4" "ipX") =
      { st9 with errLog := st9.errLog ++ [strBytes "too many connections"] })
    ∧ (Server.joinSessionWs sst9 (joinOf "u4" "ipX")).clients.length = 4 := by
  constructor
  · exact (same_ip_connection_limit 10 delim0 st9 (connOf "u4" "ipX") rfl rfl).1
      (by decide)
  · obtain ⟨client, hcl⟩ :=
      ((same_ip_connection_limit 10 delim0 st9 (connOf "u4" "ipX") rfl rfl).2.2 sst9
        (joinOf "u4" "ipX") rfl (by decide)).2 (by decide)
    rw [hcl, List.length_cons]
    decide
